import Mathlib

/-!
Shallow embedding of the Technical Referee comparison core
(KnowledgeBase, ComparisonEngine, OutputGenerator confidence estimator).
JS numbers are modelled as rationals; JS records keyed by strings are
modelled as insertion-ordered association lists `List (String × ℚ)`.
-/

/-- The standard criterion keys (STANDARD_CRITERIA in types/knowledge.ts). -/
def COST : String := "cost"

/-- STANDARD_CRITERIA.PERFORMANCE. -/
def PERFORMANCE : String := "performance"

/-- STANDARD_CRITERIA.SCALABILITY. -/
def SCALABILITY : String := "scalability"

/-- STANDARD_CRITERIA.LEARNING_CURVE. -/
def LEARNING_CURVE : String := "learningCurve"

/-- STANDARD_CRITERIA.VENDOR_LOCK_IN. -/
def VENDOR_LOCK_IN : String := "vendorLockIn"

/-- STANDARD_CRITERIA.MAINTAINABILITY. -/
def MAINTAINABILITY : String := "maintainability"

/-- Budget level (`'low' | 'medium' | 'high'`). -/
inductive Budget | low | medium | high
deriving DecidableEq

/-- Traffic level (`'low' | 'medium' | 'high'`). -/
inductive Traffic | low | medium | high
deriving DecidableEq

/-- Team skill level (`'junior' | 'mixed' | 'senior'`). -/
inductive SkillLevel | junior | mixed | senior
deriving DecidableEq

/-- Timeline (`'immediate' | 'short' | 'medium' | 'long'`). -/
inductive Timeline | immediate | short | medium | long
deriving DecidableEq

/-- The five user priority weights (1-5 scale), `UserConstraints['priorities']`. -/
structure Priorities where
  cost : ℚ
  performance : ℚ
  easeOfUse : ℚ
  scalability : ℚ
  vendorLockIn : ℚ
deriving DecidableEq

/-- Expected scale (`UserConstraints['scale']`). -/
structure Scale where
  users : ℚ
  traffic : Traffic
deriving DecidableEq

/-- Team context (`UserConstraints['team']`). -/
structure Team where
  skillLevel : SkillLevel
  experience : List String
deriving DecidableEq

/-- User constraints (core.ts `UserConstraints`). -/
structure UserConstraints where
  budget : Budget
  scale : Scale
  team : Team
  timeline : Timeline
  priorities : Priorities
deriving DecidableEq

/-- Pricing model of a cloud provider. -/
inductive PricingModel | payAsYouGo | reserved | hybrid
deriving DecidableEq

/-- Declared learning-curve tier (`'low' | 'medium' | 'high'`). -/
inductive CurveTier | low | medium | high
deriving DecidableEq

/-- Database type (`'relational' | 'document' | 'key-value' | 'graph' | 'columnar'`). -/
inductive DbType | relational | document | keyValue | graph | columnar
deriving DecidableEq

/-- Schema flexibility (`'rigid' | 'flexible' | 'schemaless'`). -/
inductive SchemaFlexibility | rigid | flexible | schemaless
deriving DecidableEq

/-- Query complexity (`'simple' | 'moderate' | 'complex'`). -/
inductive QueryComplexity | simple | moderate | complex
deriving DecidableEq

/-- Horizontal-scaling capability (`'excellent' | 'good' | 'poor'`). -/
inductive HorizontalScaling | excellent | good | poor
deriving DecidableEq

/-- Consistency model (`'strong' | 'eventual' | 'configurable'`). -/
inductive ConsistencyModel | strong | eventual | configurable
deriving DecidableEq

/-- Union of the metadata fields read by any scoring function
(CloudProviderData, BackendFrameworkData, DatabaseData merged, since the JS
code duck-types `option.metadata`).  A `none` field models a JS `undefined`
key. -/
structure OptionMetadata where
  mname : Option String := none
  pricingModel : Option PricingModel := none
  serviceCount : Option ℚ := none
  enterpriseFeatures : Option (List String) := none
  learningCurve : Option CurveTier := none
  marketShare : Option ℚ := none
  regions : Option ℚ := none
  certifications : Option (List String) := none
  language : Option String := none
  developmentSpeed : Option ℚ := none
  communitySize : Option ℚ := none
  enterpriseAdoption : Option ℚ := none
  performanceRating : Option ℚ := none
  packageEcosystem : Option ℚ := none
  dbType : Option DbType := none
  schemaFlexibility : Option SchemaFlexibility := none
  queryComplexity : Option QueryComplexity := none
  horizontalScaling : Option HorizontalScaling := none
  consistencyModel : Option ConsistencyModel := none
  acidCompliance : Option Bool := none
deriving DecidableEq

/-- A technical option (core.ts `TechnicalOption`).  `name`/`category` are
`Option String` so that a missing / non-string JS value is representable
(`none`); `metadata` is `none` when the JS `metadata` field is absent. -/
structure TechnicalOption where
  name : Option String
  category : Option String
  metadata : Option OptionMetadata
deriving DecidableEq

/-- `option.name` as used by pipeline code that runs only after validation
has ensured the name is a string (JS would throw on the `none` branch,
which is unreachable there). -/
def optNameStr (o : TechnicalOption) : String := o.name.getD ""

/-- JS `toLowerCase`, modelled structurally (per-character lowering) so
that concrete instances reduce. -/
def strToLower (s : String) : String := ⟨s.data.map Char.toLower⟩

/-- JS `trim`: drop whitespace from both ends. -/
def strTrim (s : String) : String :=
  ⟨((s.data.dropWhile Char.isWhitespace).reverse.dropWhile Char.isWhitespace).reverse⟩

/-- JS truthiness test for an optional numeric field (`data.x && ...`):
`undefined` and `0` are falsy. -/
def qTruthy : Option ℚ → Bool
  | some v => v != 0
  | none => false

/-- `data.x && data.x > c` for a numeric field. -/
def truthyGt (x : Option ℚ) (c : ℚ) : Bool :=
  match x with
  | some v => decide (v ≠ 0 ∧ c < v)
  | none => false

/-- `data.x && data.x < c` for a numeric field. -/
def truthyLt (x : Option ℚ) (c : ℚ) : Bool :=
  match x with
  | some v => decide (v ≠ 0 ∧ v < c)
  | none => false

/-- `data.x && data.x >= c` for a numeric field. -/
def truthyGe (x : Option ℚ) (c : ℚ) : Bool :=
  match x with
  | some v => decide (v ≠ 0 ∧ c ≤ v)
  | none => false

/-- `data.x > c` with no truthiness guard (`undefined > c` is false in JS). -/
def optGt (x : Option ℚ) (c : ℚ) : Bool :=
  match x with
  | some v => decide (c < v)
  | none => false

/-- `data.x >= c` with no truthiness guard. -/
def optGe (x : Option ℚ) (c : ℚ) : Bool :=
  match x with
  | some v => decide (c ≤ v)
  | none => false

/-- `Math.min(100, Math.max(0, score))`, the clamp every scoring function and
score adjustment ends with. -/
def clamp0100 (x : ℚ) : ℚ := min 100 (max 0 x)

/-- JS `Math.round` on a rational (round half toward positive infinity). -/
def jsRound (x : ℚ) : ℤ := ⌊x + 1/2⌋

/-- JS record assignment `m[k] = v`: update in place when the key exists,
append otherwise (insertion order preserved, as in JS objects). -/
def rset (m : List (String × ℚ)) (k : String) (v : ℚ) : List (String × ℚ) :=
  if (m.lookup k).isSome then m.map (fun p => if p.1 = k then (k, v) else p)
  else m ++ [(k, v)]

/-- The guarded, clamped update used by `applyScoreAdjustments` and
`applyContextualAdjustments`:
`if (m[k] !== undefined) m[k] = Math.min(100, Math.max(0, m[k] + delta))`. -/
def adjustExisting (m : List (String × ℚ)) (k : String) (delta : ℚ) :
    List (String × ℚ) :=
  match m.lookup k with
  | some v => rset m k (clamp0100 (v + delta))
  | none => m

/-- KnowledgeBase.scoreCloudCost. -/
def scoreCloudCost (o : TechnicalOption) : ℚ :=
  match o.metadata with
  | none => 50
  | some d =>
    let score : ℚ := 50
    let score := if d.pricingModel = some .payAsYouGo then score + 15
      else if d.pricingModel = some .hybrid then score + 10
      else if d.pricingModel = some .reserved then score + 5
      else score
    let score := if truthyGt d.marketShare 30 then score + 10
      else if truthyGt d.marketShare 15 then score + 5
      else score
    clamp0100 score

/-- KnowledgeBase.scoreCloudPerformance. -/
def scoreCloudPerformance (o : TechnicalOption) : ℚ :=
  match o.metadata with
  | none => 50
  | some d =>
    let score : ℚ := 50
    let score := if truthyGt d.regions 20 then score + 20
      else if truthyGt d.regions 10 then score + 15
      else if truthyGt d.regions 5 then score + 10
      else score
    let score := if truthyGt d.marketShare 30 then score + 15
      else if truthyGt d.marketShare 15 then score + 10
      else score
    clamp0100 score

/-- KnowledgeBase.scoreCloudScalability. -/
def scoreCloudScalability (o : TechnicalOption) : ℚ :=
  match o.metadata with
  | none => 50
  | some d =>
    let score : ℚ := 50
    let score := if truthyGt d.serviceCount 200 then score + 20
      else if truthyGt d.serviceCount 100 then score + 15
      else if truthyGt d.serviceCount 50 then score + 10
      else score
    let score := if truthyGt d.regions 15 then score + 15
      else if truthyGt d.regions 8 then score + 10
      else score
    clamp0100 score

/-- KnowledgeBase.scoreCloudLearningCurve. -/
def scoreCloudLearningCurve (o : TechnicalOption) : ℚ :=
  match o.metadata with
  | none => 50
  | some d =>
    let score : ℚ := 50
    let score := if d.learningCurve = some .low then score + 20
      else if d.learningCurve = some .medium then score + 10
      else score
    let score := if truthyGt d.marketShare 30 then score + 15
      else if truthyGt d.marketShare 15 then score + 10
      else score
    clamp0100 score

/-- KnowledgeBase.scoreCloudVendorLockIn. -/
def scoreCloudVendorLockIn (o : TechnicalOption) : ℚ :=
  match o.metadata with
  | none => 50
  | some d =>
    let score : ℚ := 50
    let score := if truthyLt d.serviceCount 50 then score + 20
      else if truthyLt d.serviceCount 100 then score + 10
      else score
    let score := if truthyLt d.marketShare 10 then score + 15
      else if truthyLt d.marketShare 25 then score + 10
      else score
    clamp0100 score

/-- KnowledgeBase.scoreCloudMaintainability. -/
def scoreCloudMaintainability (o : TechnicalOption) : ℚ :=
  match o.metadata with
  | none => 50
  | some d =>
    let score : ℚ := 50
    let ef := d.enterpriseFeatures.getD []
    let score := score + min 20 ((ef.length : ℚ) * 2)
    let certs := d.certifications.getD []
    let score := score + min 15 ((certs.length : ℚ) * 3)
    let score := if truthyGt d.marketShare 30 then score + 10
      else if truthyGt d.marketShare 15 then score + 5
      else score
    clamp0100 score

/-- KnowledgeBase.scoreBackendCost. -/
def scoreBackendCost (o : TechnicalOption) : ℚ :=
  match o.metadata with
  | none => 50
  | some d =>
    let score : ℚ := 50
    let score := score + 15
    let score := if d.language = some "javascript" ∨ d.language = some "python"
      then score + 10
      else if d.language = some "java" ∨ d.language = some "c#" then score + 5
      else score
    let score := if truthyGe d.developmentSpeed 8 then score + 15
      else if truthyGe d.developmentSpeed 6 then score + 10
      else score
    clamp0100 score

/-- KnowledgeBase.scoreBackendPerformance. -/
def scoreBackendPerformance (o : TechnicalOption) : ℚ :=
  match o.metadata with
  | none => 50
  | some d =>
    let score : ℚ := 30
    let score := match d.performanceRating with
      | some v => if v ≠ 0 then score + v * 7 else score
      | none => score
    clamp0100 score

/-- KnowledgeBase.scoreBackendScalability. -/
def scoreBackendScalability (o : TechnicalOption) : ℚ :=
  match o.metadata with
  | none => 50
  | some d =>
    let score : ℚ := 50
    let score := if truthyGe d.performanceRating 8 then score + 20
      else if truthyGe d.performanceRating 6 then score + 15
      else if truthyGe d.performanceRating 4 then score + 10
      else score
    let score := if truthyGe d.enterpriseAdoption 8 then score + 15
      else if truthyGe d.enterpriseAdoption 6 then score + 10
      else score
    clamp0100 score

/-- KnowledgeBase.scoreBackendLearningCurve. -/
def scoreBackendLearningCurve (o : TechnicalOption) : ℚ :=
  match o.metadata with
  | none => 50
  | some d =>
    let score : ℚ := 30
    let score := match d.developmentSpeed with
      | some v => if v ≠ 0 then score + v * 5 else score
      | none => score
    let score := if d.learningCurve = some .low then score + 20
      else if d.learningCurve = some .medium then score + 10
      else score
    clamp0100 score

/-- KnowledgeBase.scoreBackendVendorLockIn. -/
def scoreBackendVendorLockIn (o : TechnicalOption) : ℚ :=
  match o.metadata with
  | none => 50
  | some d =>
    let score : ℚ := 70
    let score := if d.language = some "javascript" ∨ d.language = some "python" ∨
        d.language = some "java" then score + 15 else score
    let score := if truthyGt d.packageEcosystem 100000 then score + 15
      else if truthyGt d.packageEcosystem 50000 then score + 10
      else score
    clamp0100 score

/-- KnowledgeBase.scoreBackendMaintainability. -/
def scoreBackendMaintainability (o : TechnicalOption) : ℚ :=
  match o.metadata with
  | none => 50
  | some d =>
    let score : ℚ := 30
    let score := if truthyGt d.communitySize 100000 then score + 25
      else if truthyGt d.communitySize 50000 then score + 20
      else if truthyGt d.communitySize 10000 then score + 15
      else score
    let score := if truthyGe d.enterpriseAdoption 8 then score + 20
      else if truthyGe d.enterpriseAdoption 6 then score + 15
      else if truthyGe d.enterpriseAdoption 4 then score + 10
      else score
    let score := if truthyGt d.packageEcosystem 100000 then score + 15
      else if truthyGt d.packageEcosystem 50000 then score + 10
      else score
    clamp0100 score

/-- The open-source database name list shared by scoreDatabaseCost and
scoreDatabaseVendorLockIn. -/
def openSourceDatabases : List String :=
  ["postgresql", "mysql", "mongodb", "redis", "cassandra"]

/-- KnowledgeBase.scoreDatabaseCost. -/
def scoreDatabaseCost (o : TechnicalOption) : ℚ :=
  match o.metadata with
  | none => 50
  | some d =>
    let score : ℚ := 50
    let score := if strToLower (optNameStr o) ∈ openSourceDatabases then score + 20
      else score
    let score := if d.queryComplexity = some .simple then score + 15
      else if d.queryComplexity = some .moderate then score + 10
      else score
    clamp0100 score

/-- KnowledgeBase.scoreDatabasePerformance. -/
def scoreDatabasePerformance (o : TechnicalOption) : ℚ :=
  match o.metadata with
  | none => 50
  | some d =>
    let score : ℚ := 30
    let score := match d.performanceRating with
      | some v => if v ≠ 0 then score + v * 7 else score
      | none => score
    clamp0100 score

/-- KnowledgeBase.scoreDatabaseScalability.  Note that `data.type !==
'relational'` is true when the field is absent. -/
def scoreDatabaseScalability (o : TechnicalOption) : ℚ :=
  match o.metadata with
  | none => 50
  | some d =>
    let score : ℚ := 50
    let score := if d.horizontalScaling = some .excellent then score + 25
      else if d.horizontalScaling = some .good then score + 15
      else if d.horizontalScaling = some .poor then score - 10
      else score
    let score := if d.schemaFlexibility = some .schemaless then score + 15
      else if d.schemaFlexibility = some .flexible then score + 10
      else score
    let score := if d.dbType ≠ some .relational then score + 10 else score
    clamp0100 score

/-- KnowledgeBase.scoreDatabaseLearningCurve. -/
def scoreDatabaseLearningCurve (o : TechnicalOption) : ℚ :=
  match o.metadata with
  | none => 50
  | some d =>
    let score : ℚ := 50
    let score := if d.queryComplexity = some .simple then score + 20
      else if d.queryComplexity = some .moderate then score + 10
      else score
    let score := if d.dbType = some .relational then score + 15 else score
    let score := if d.schemaFlexibility = some .rigid then score + 10 else score
    clamp0100 score

/-- KnowledgeBase.scoreDatabaseVendorLockIn. -/
def scoreDatabaseVendorLockIn (o : TechnicalOption) : ℚ :=
  match o.metadata with
  | none => 50
  | some d =>
    let score : ℚ := 50
    let score := if d.dbType = some .relational then score + 20 else score
    let score := if strToLower (optNameStr o) ∈ openSourceDatabases then score + 25
      else score
    let score := if d.dbType = some .relational then score + 10 else score
    clamp0100 score

/-- KnowledgeBase.scoreDatabaseMaintainability. -/
def scoreDatabaseMaintainability (o : TechnicalOption) : ℚ :=
  match o.metadata with
  | none => 50
  | some d =>
    let score : ℚ := 50
    let score := if d.acidCompliance = some true then score + 20 else score
    let score := if d.consistencyModel = some .strong then score + 15
      else if d.consistencyModel = some .configurable then score + 10
      else score
    let score := if d.dbType = some .relational then score + 10 else score
    clamp0100 score

/-- A single evaluation criterion (knowledge.ts `EvaluationCriteria`). -/
structure EvaluationCriteria where
  name : String
  weight : ℚ
  scoringFunction : TechnicalOption → ℚ
  description : String

/-- A scoring rule (knowledge.ts `ScoringRule`). -/
structure ScoringRule where
  name : String
  condition : TechnicalOption → Bool
  scoreAdjustment : ℚ
  affectedCriteria : List String

/-- Domain knowledge for one category (knowledge.ts `DomainKnowledge`). -/
structure DomainKnowledge where
  category : String
  criteria : List EvaluationCriteria
  scoringRules : List ScoringRule

/-- KnowledgeBase.hasEnterpriseFeatures.  A JS array is truthy even when
empty, so only an absent field fails the `data.enterpriseFeatures &&` guard. -/
def hasEnterpriseFeatures (o : TechnicalOption) : Bool :=
  match o.metadata with
  | some d =>
    match d.enterpriseFeatures with
    | some l => decide (5 < l.length)
    | none => false
  | none => false

/-- KnowledgeBase.hasHighMarketShare. -/
def hasHighMarketShare (o : TechnicalOption) : Bool :=
  match o.metadata with
  | some d => optGt d.marketShare 25
  | none => false

/-- KnowledgeBase.hasPayAsYouGoPricing. -/
def hasPayAsYouGoPricing (o : TechnicalOption) : Bool :=
  match o.metadata with
  | some d => d.pricingModel = some .payAsYouGo
  | none => false

/-- KnowledgeBase.hasHighDevelopmentSpeed. -/
def hasHighDevelopmentSpeed (o : TechnicalOption) : Bool :=
  match o.metadata with
  | some d => optGe d.developmentSpeed 8
  | none => false

/-- KnowledgeBase.hasLargeCommunity. -/
def hasLargeCommunity (o : TechnicalOption) : Bool :=
  match o.metadata with
  | some d => optGt d.communitySize 50000
  | none => false

/-- KnowledgeBase.hasEnterpriseAdoption. -/
def hasEnterpriseAdoption (o : TechnicalOption) : Bool :=
  match o.metadata with
  | some d => optGe d.enterpriseAdoption 7
  | none => false

/-- KnowledgeBase.hasACIDCompliance. -/
def hasACIDCompliance (o : TechnicalOption) : Bool :=
  match o.metadata with
  | some d => d.acidCompliance = some true
  | none => false

/-- KnowledgeBase.hasSchemaFlexibility. -/
def hasSchemaFlexibility (o : TechnicalOption) : Bool :=
  match o.metadata with
  | some d => d.schemaFlexibility = some .flexible ∨
      d.schemaFlexibility = some .schemaless
  | none => false

/-- KnowledgeBase.hasStrongConsistency. -/
def hasStrongConsistency (o : TechnicalOption) : Bool :=
  match o.metadata with
  | some d => d.consistencyModel = some .strong
  | none => false

/-- KnowledgeBase.createCloudProviderKnowledge. -/
def createCloudProviderKnowledge : DomainKnowledge where
  category := "cloud"
  criteria := [
    ⟨COST, 1, scoreCloudCost,
      "Pricing models, operational costs, and resource efficiency"⟩,
    ⟨PERFORMANCE, 1, scoreCloudPerformance,
      "Compute performance, network speed, and global infrastructure"⟩,
    ⟨SCALABILITY, 1, scoreCloudScalability,
      "Auto-scaling capabilities and global reach"⟩,
    ⟨LEARNING_CURVE, 1, scoreCloudLearningCurve,
      "Ease of getting started and documentation quality"⟩,
    ⟨VENDOR_LOCK_IN, 1, scoreCloudVendorLockIn,
      "Portability and standards compliance"⟩,
    ⟨MAINTAINABILITY, 1, scoreCloudMaintainability,
      "Service reliability and enterprise support"⟩]
  scoringRules := [
    ⟨"Enterprise Features Bonus", hasEnterpriseFeatures, 10, [MAINTAINABILITY]⟩,
    ⟨"High Market Share Bonus", hasHighMarketShare, 5,
      [LEARNING_CURVE, MAINTAINABILITY]⟩,
    ⟨"Pay-as-you-go Cost Advantage", hasPayAsYouGoPricing, 8, [COST]⟩]

/-- KnowledgeBase.createBackendFrameworkKnowledge. -/
def createBackendFrameworkKnowledge : DomainKnowledge where
  category := "backend"
  criteria := [
    ⟨COST, 1, scoreBackendCost,
      "Development costs, hosting requirements, and licensing"⟩,
    ⟨PERFORMANCE, 1, scoreBackendPerformance,
      "Runtime performance and throughput capabilities"⟩,
    ⟨SCALABILITY, 1, scoreBackendScalability,
      "Horizontal scaling and load handling capabilities"⟩,
    ⟨LEARNING_CURVE, 1, scoreBackendLearningCurve,
      "Development speed and ease of learning"⟩,
    ⟨VENDOR_LOCK_IN, 1, scoreBackendVendorLockIn,
      "Framework independence and portability"⟩,
    ⟨MAINTAINABILITY, 1, scoreBackendMaintainability,
      "Code structure, testing support, and community"⟩]
  scoringRules := [
    ⟨"High Development Speed Bonus", hasHighDevelopmentSpeed, 10,
      [LEARNING_CURVE]⟩,
    ⟨"Large Community Bonus", hasLargeCommunity, 8,
      [MAINTAINABILITY, LEARNING_CURVE]⟩,
    ⟨"Enterprise Adoption Bonus", hasEnterpriseAdoption, 6, [MAINTAINABILITY]⟩]

/-- KnowledgeBase.createDatabaseKnowledge. -/
def createDatabaseKnowledge : DomainKnowledge where
  category := "database"
  criteria := [
    ⟨COST, 1, scoreDatabaseCost,
      "Licensing costs, hosting requirements, and operational expenses"⟩,
    ⟨PERFORMANCE, 1, scoreDatabasePerformance,
      "Query performance and throughput capabilities"⟩,
    ⟨SCALABILITY, 1, scoreDatabaseScalability,
      "Horizontal scaling and data distribution capabilities"⟩,
    ⟨LEARNING_CURVE, 1, scoreDatabaseLearningCurve,
      "Query language complexity and ease of use"⟩,
    ⟨VENDOR_LOCK_IN, 1, scoreDatabaseVendorLockIn,
      "Standards compliance and data portability"⟩,
    ⟨MAINTAINABILITY, 1, scoreDatabaseMaintainability,
      "ACID compliance, backup capabilities, and tooling"⟩]
  scoringRules := [
    ⟨"ACID Compliance Bonus", hasACIDCompliance, 10, [MAINTAINABILITY]⟩,
    ⟨"Schema Flexibility Bonus", hasSchemaFlexibility, 8, [SCALABILITY]⟩,
    ⟨"Strong Consistency Bonus", hasStrongConsistency, 6, [MAINTAINABILITY]⟩]

/-- The `domainKnowledge` map (keys `cloud`, `backend`, `database`). -/
def domainKnowledgeFor : Option String → Option DomainKnowledge
  | some "cloud" => some createCloudProviderKnowledge
  | some "backend" => some createBackendFrameworkKnowledge
  | some "database" => some createDatabaseKnowledge
  | _ => none

/-- KnowledgeBase.getGenericCriteria: the fallback criteria for unknown
categories, each scoring function the constant 50. -/
def getGenericCriteria : List EvaluationCriteria := [
  ⟨COST, 1, fun _ => 50, "Overall cost considerations"⟩,
  ⟨PERFORMANCE, 1, fun _ => 50, "Performance characteristics"⟩,
  ⟨SCALABILITY, 1, fun _ => 50, "Scaling capabilities"⟩,
  ⟨LEARNING_CURVE, 1, fun _ => 50, "Ease of adoption"⟩,
  ⟨VENDOR_LOCK_IN, 1, fun _ => 50, "Vendor independence"⟩,
  ⟨MAINTAINABILITY, 1, fun _ => 50, "Long-term maintainability"⟩]

/-- KnowledgeBase.getCriteriaForCategory. -/
def getCriteriaForCategory (category : Option String) : List EvaluationCriteria :=
  match domainKnowledgeFor category with
  | none => getGenericCriteria
  | some k => k.criteria

/-- KnowledgeBase.getScoringRulesForCategory. -/
def getScoringRulesForCategory (category : Option String) : List ScoringRule :=
  match domainKnowledgeFor category with
  | none => []
  | some k => k.scoringRules

/-- KnowledgeBase.getKnownTechnologiesForCategory. -/
def getKnownTechnologiesForCategory : Option String → List String
  | some "cloud" => ["aws", "gcp", "azure", "digitalocean", "linode", "vultr"]
  | some "backend" =>
      ["node.js", "django", "spring boot", "express", "fastapi", "rails", "laravel"]
  | some "database" =>
      ["postgresql", "mysql", "mongodb", "redis", "cassandra", "dynamodb"]
  | _ => []

/-- KnowledgeBase.isKnownTechnology. -/
def isKnownTechnology (o : TechnicalOption) : Bool :=
  match domainKnowledgeFor o.category with
  | none => false
  | some _ => strToLower (optNameStr o) ∈ getKnownTechnologiesForCategory o.category

/-- KnowledgeBase.evaluateOption: run every criterion's scoring function
(the try/catch is dead in this model because the functions are total). -/
def evaluateOption (o : TechnicalOption) : List (String × ℚ) :=
  (getCriteriaForCategory o.category).foldl
    (fun m c => rset m c.name (c.scoringFunction o)) []

/-- KnowledgeBase.applyScoreAdjustments: apply each firing rule's fixed
delta to every affected criterion that is present, clamped to [0,100]. -/
def applyScoreAdjustments (o : TechnicalOption) (baseScores : List (String × ℚ)) :
    List (String × ℚ) :=
  (getScoringRulesForCategory o.category).foldl
    (fun m rule =>
      if rule.condition o then
        rule.affectedCriteria.foldl (fun m' k => adjustExisting m' k rule.scoreAdjustment) m
      else m)
    baseScores

/-- KnowledgeBase.getComprehensiveEvaluation. -/
def getComprehensiveEvaluation (o : TechnicalOption) : List (String × ℚ) :=
  applyScoreAdjustments o (evaluateOption o)

/-- KnowledgeBase.getFallbackMetadata. -/
def getFallbackMetadata : Option String → OptionMetadata
  | some "cloud" =>
    { mname := some "Unknown Cloud Provider", pricingModel := some .payAsYouGo,
      serviceCount := some 50, enterpriseFeatures := some [],
      learningCurve := some .medium, marketShare := some 5, regions := some 5,
      certifications := some [] }
  | some "backend" =>
    { mname := some "Unknown Backend Framework", language := some "unknown",
      developmentSpeed := some 5, communitySize := some 10000,
      enterpriseAdoption := some 5, performanceRating := some 5,
      learningCurve := some .medium, packageEcosystem := some 10000 }
  | some "database" =>
    { mname := some "Unknown Database", dbType := some .relational,
      schemaFlexibility := some .rigid, queryComplexity := some .moderate,
      horizontalScaling := some .good, consistencyModel := some .strong,
      acidCompliance := some true, performanceRating := some 5 }
  | _ => {}

/-- KnowledgeBase.getTechnologyMetadata. -/
def getTechnologyMetadata (o : TechnicalOption) : OptionMetadata :=
  if isKnownTechnology o then o.metadata.getD {} else getFallbackMetadata o.category

/-- JS object spread `{ ...fallback, ...user }`: a field of the user
metadata overrides the fallback when present. -/
def mergeMetadata (fallback user : OptionMetadata) : OptionMetadata where
  mname := user.mname.orElse fun _ => fallback.mname
  pricingModel := user.pricingModel.orElse fun _ => fallback.pricingModel
  serviceCount := user.serviceCount.orElse fun _ => fallback.serviceCount
  enterpriseFeatures := user.enterpriseFeatures.orElse fun _ => fallback.enterpriseFeatures
  learningCurve := user.learningCurve.orElse fun _ => fallback.learningCurve
  marketShare := user.marketShare.orElse fun _ => fallback.marketShare
  regions := user.regions.orElse fun _ => fallback.regions
  certifications := user.certifications.orElse fun _ => fallback.certifications
  language := user.language.orElse fun _ => fallback.language
  developmentSpeed := user.developmentSpeed.orElse fun _ => fallback.developmentSpeed
  communitySize := user.communitySize.orElse fun _ => fallback.communitySize
  enterpriseAdoption := user.enterpriseAdoption.orElse fun _ => fallback.enterpriseAdoption
  performanceRating := user.performanceRating.orElse fun _ => fallback.performanceRating
  packageEcosystem := user.packageEcosystem.orElse fun _ => fallback.packageEcosystem
  dbType := user.dbType.orElse fun _ => fallback.dbType
  schemaFlexibility := user.schemaFlexibility.orElse fun _ => fallback.schemaFlexibility
  queryComplexity := user.queryComplexity.orElse fun _ => fallback.queryComplexity
  horizontalScaling := user.horizontalScaling.orElse fun _ => fallback.horizontalScaling
  consistencyModel := user.consistencyModel.orElse fun _ => fallback.consistencyModel
  acidCompliance := user.acidCompliance.orElse fun _ => fallback.acidCompliance

/-- ComparisonEngine.processOption: known technologies pass through, unknown
ones get fallback metadata merged under their own metadata. -/
def processOption (o : TechnicalOption) : TechnicalOption :=
  if isKnownTechnology o then o
  else
    let merged := mergeMetadata (getTechnologyMetadata o) (o.metadata.getD {})
    { o with metadata := some merged }

/-- ComparisonEngine.processOptions. -/
def processOptions (options : List TechnicalOption) : List TechnicalOption :=
  options.map processOption

/-- ComparisonEngine.normalizePriorities (the OutputGenerator has a textually
identical private copy): scale the five raw weights to sum to 1, or use
equal weights 0.2 when the total is 0. -/
def normalizePriorities (p : Priorities) : Priorities :=
  let total := p.cost + p.performance + p.easeOfUse + p.scalability + p.vendorLockIn
  if total = 0 then ⟨1/5, 1/5, 1/5, 1/5, 1/5⟩
  else ⟨p.cost / total, p.performance / total, p.easeOfUse / total,
    p.scalability / total, p.vendorLockIn / total⟩

/-- ComparisonEngine.getEmphasisFactor. -/
def getEmphasisFactor (priority : ℚ) : ℚ :=
  if priority = 5 then 3/2
  else if priority = 4 then 6/5
  else if priority = 3 then 1
  else if priority = 2 then 4/5
  else if priority = 1 then 1/2
  else 1

/-- ComparisonEngine.applyPriorityEmphasis: multiply each normalized weight
by the emphasis factor of its raw value, then re-normalize when the total is
positive. -/
def applyPriorityEmphasis (np raw : Priorities) : Priorities :=
  let e : Priorities :=
    ⟨np.cost * getEmphasisFactor raw.cost,
     np.performance * getEmphasisFactor raw.performance,
     np.easeOfUse * getEmphasisFactor raw.easeOfUse,
     np.scalability * getEmphasisFactor raw.scalability,
     np.vendorLockIn * getEmphasisFactor raw.vendorLockIn⟩
  let total := e.cost + e.performance + e.easeOfUse + e.scalability + e.vendorLockIn
  if 0 < total then
    ⟨e.cost / total, e.performance / total, e.easeOfUse / total,
     e.scalability / total, e.vendorLockIn / total⟩
  else e

/-- The `criteriaMapping` record of ComparisonEngine.calculateWeightedScore:
the six standard criteria with their emphasized weights, maintainability
carrying the composite weight 0.3·cost + 0.2·performance. -/
def criteriaMapping (ew : Priorities) : List (String × ℚ) :=
  [(COST, ew.cost), (PERFORMANCE, ew.performance), (SCALABILITY, ew.scalability),
   (LEARNING_CURVE, ew.easeOfUse), (VENDOR_LOCK_IN, ew.vendorLockIn),
   (MAINTAINABILITY, ew.cost * (3/10) + ew.performance * (1/5))]

/-- ComparisonEngine.calculateWeightedScore: weighted average of the criteria
present in the scores map, or the neutral 50 when no weight applies. -/
def calculateWeightedScore (criteriaScores : List (String × ℚ)) (p : Priorities) : ℚ :=
  let np := normalizePriorities p
  let ew := applyPriorityEmphasis np p
  let acc := (criteriaMapping ew).foldl
    (fun (a : ℚ × ℚ) kw =>
      match criteriaScores.lookup kw.1 with
      | some s => (a.1 + s * kw.2, a.2 + kw.2)
      | none => a)
    (0, 0)
  if 0 < acc.2 then acc.1 / acc.2 else 50

/-- An option's score (core.ts `OptionScore`); `normalizedScore` is the
`Math.round`ed weighted score. -/
structure OptionScore where
  option : TechnicalOption
  criteriaScores : List (String × ℚ)
  weightedScore : ℚ
  normalizedScore : ℤ
deriving DecidableEq

/-- ComparisonEngine.calculateOptionScore. -/
def calculateOptionScore (o : TechnicalOption) (k : UserConstraints) : OptionScore :=
  let baseScores := getComprehensiveEvaluation o
  let weightedScore := calculateWeightedScore baseScores k.priorities
  ⟨o, baseScores, weightedScore, jsRound weightedScore⟩

/-- ComparisonEngine.calculateScores. -/
def calculateScores (options : List TechnicalOption) (k : UserConstraints) :
    List OptionScore :=
  options.map (calculateOptionScore · k)

/-- `exp.toLowerCase().includes(option.name.toLowerCase())`: substring test. -/
def strIncludes (hay needle : String) : Bool :=
  (List.range (hay.toList.length + 1)).any
    (fun i => needle.toList.isPrefixOf (hay.toList.drop i))

/-- The team-experience match in calculateContextualAdjustments. -/
def experienceMatch (o : TechnicalOption) (k : UserConstraints) : Bool :=
  k.team.experience.any (fun e => strIncludes (strToLower e) (strToLower (optNameStr o)))

/-- ComparisonEngine.calculateContextualAdjustments.  Each firing rule writes
its delta with a plain JS assignment `adjustments[criterion] = delta`, so a
later rule overwrites an earlier one on the same criterion. -/
def calculateContextualAdjustments (o : TechnicalOption) (k : UserConstraints) :
    List (String × ℚ) :=
  let a : List (String × ℚ) := []
  let a := if k.budget = .low then rset a COST 10
    else if k.budget = .high then rset a PERFORMANCE 5
    else a
  let a := if k.timeline = .immediate then rset a LEARNING_CURVE 15
    else if k.timeline = .long then rset a SCALABILITY 10
    else a
  let a := if k.team.skillLevel = .junior then
      rset (rset a LEARNING_CURVE 10) MAINTAINABILITY 5
    else if k.team.skillLevel = .senior then rset a PERFORMANCE 5
    else a
  let a := if experienceMatch o k then
      rset (rset a LEARNING_CURVE 20) MAINTAINABILITY 10
    else a
  let a := if 100000 < k.scale.users ∨ k.scale.traffic = .high then
      rset (rset a SCALABILITY 15) PERFORMANCE 10
    else a
  a

/-- ComparisonEngine.applyContextualAdjustments, value-level semantics (the
returned scores; see the heap model below for the aliasing behaviour of the
JS original): apply each adjustment clamped, then recompute the weighted and
normalized scores. -/
def applyContextualAdjustments (scores : List OptionScore) (k : UserConstraints) :
    List OptionScore :=
  scores.map (fun s =>
    let adjustments := calculateContextualAdjustments s.option k
    let cs := adjustments.foldl (fun m kv => adjustExisting m kv.1 kv.2) s.criteriaScores
    let w := calculateWeightedScore cs k.priorities
    ⟨s.option, cs, w, jsRound w⟩)

/-- A ranked option (core.ts `RankedOption`). -/
structure RankedOption where
  option : TechnicalOption
  rank : ℕ
  score : ℚ
deriving DecidableEq

/-- Stable descending insertion: the new element goes before the first
element whose weighted score is not strictly greater, so elements already in
the list that tie with it keep their position after it.  Together with
`sortDesc` this is the unique stable descending sort, the behaviour of the
stable JS `Array.prototype.sort` with comparator `b.weightedScore -
a.weightedScore`. -/
def insort (x : OptionScore) : List OptionScore → List OptionScore
  | [] => [x]
  | h :: t => if x.weightedScore < h.weightedScore then h :: insort x t else x :: h :: t

/-- Stable sort of option scores by descending weighted score. -/
def sortDesc : List OptionScore → List OptionScore
  | [] => []
  | x :: t => insort x (sortDesc t)

/-- Assign dense ranks `i, i+1, ...` down an already sorted list. -/
def withRanks : List OptionScore → ℕ → List RankedOption
  | [], _ => []
  | s :: t, i => ⟨s.option, i, s.weightedScore⟩ :: withRanks t (i + 1)

/-- ComparisonEngine.rankOptions: stable sort descending by weighted score,
then ranks 1..N in order. -/
def rankOptions (scores : List OptionScore) : List RankedOption :=
  withRanks (sortDesc scores) 1

/-- Impact level of a compromise. -/
inductive Impact | low | medium | high
deriving DecidableEq

/-- A compromise (core.ts `Compromise`). -/
structure Compromise where
  description : String
  impact : Impact
  affectedCriteria : List String
deriving DecidableEq

/-- ComparisonEngine.getCriterionPriority: user priority of a criterion,
maintainability taking the max of cost and performance, anything unmapped
defaulting to 3. -/
def getCriterionPriority (criterion : String) (p : Priorities) : ℚ :=
  if criterion = COST then p.cost
  else if criterion = PERFORMANCE then p.performance
  else if criterion = SCALABILITY then p.scalability
  else if criterion = LEARNING_CURVE then p.easeOfUse
  else if criterion = VENDOR_LOCK_IN then p.vendorLockIn
  else if criterion = MAINTAINABILITY then max p.cost p.performance
  else 3

/-- ComparisonEngine.determineImpact: classify `(scoreDifference/100) ×
priority`. -/
def determineImpact (scoreDifference priority : ℚ) : Impact :=
  let impactScore := scoreDifference / 100 * priority
  if 3/20 < impactScore then .high
  else if 2/25 < impactScore then .medium
  else .low

/-- `Math.max(...xs)` on a list: `none` models the empty spread, whose JS
value -Infinity makes every `> 20` test false downstream. -/
def listMax : List ℚ → Option ℚ
  | [] => none
  | h :: t => some (t.foldl max h)

/-- ComparisonEngine.identifyCompromises: emit a compromise for every
criterion on which this option trails the best other option by more than 20
points. -/
def identifyCompromises (optionScore : OptionScore) (allScores : List OptionScore)
    (k : UserConstraints) : List Compromise :=
  optionScore.criteriaScores.filterMap (fun cs =>
    let otherScores := (allScores.filter
        (fun s => optNameStr s.option ≠ optNameStr optionScore.option)).map
      (fun s => (s.criteriaScores.lookup cs.1).getD 0)
    match listMax otherScores with
    | none => none
    | some maxOtherScore =>
      let scoreDifference := maxOtherScore - cs.2
      if 20 < scoreDifference then
        let priority := getCriterionPriority cs.1 k.priorities
        some ⟨"Choosing " ++ optNameStr optionScore.option ++
            " means accepting weaker " ++ cs.1 ++ " performance",
          determineImpact scoreDifference priority, [cs.1]⟩
      else none)

/-- Trade-off analysis (core.ts `TradeOffAnalysis`); the strongest/weakest
records are association lists from criterion to option. -/
structure TradeOffAnalysis where
  strongestOption : List (String × TechnicalOption)
  weakestOption : List (String × TechnicalOption)
  compromises : List Compromise
deriving DecidableEq

/-- The insertion-ordered set of all criteria appearing in any score map
(the `allCriteria` Set of generateTradeOffAnalysis). -/
def allCriteriaOf (scores : List OptionScore) : List String :=
  scores.foldl
    (fun acc s => s.criteriaScores.foldl
      (fun a kv => if kv.1 ∈ a then a else a ++ [kv.1]) acc) []

/-- The inner loop of generateTradeOffAnalysis: scan for the strongest and
weakest option on one criterion, first-encountered winning ties. -/
def strongWeakFor (scores : List OptionScore) (criterion : String) (s0 : OptionScore) :
    OptionScore × OptionScore :=
  scores.foldl
    (fun (sw : OptionScore × OptionScore) s =>
      let criterionScore := (s.criteriaScores.lookup criterion).getD 0
      let strongestScore := (sw.1.criteriaScores.lookup criterion).getD 0
      let weakestScore := (sw.2.criteriaScores.lookup criterion).getD 0
      let strongest := if strongestScore < criterionScore then s else sw.1
      let weakest := if criterionScore < weakestScore then s else sw.2
      (strongest, weakest))
    (s0, s0)

/-- ComparisonEngine.generateTradeOffAnalysis. -/
def generateTradeOffAnalysis (scores : List OptionScore) (k : UserConstraints) :
    TradeOffAnalysis :=
  let compromises := scores.foldl (fun acc s => acc ++ identifyCompromises s scores k) []
  match scores.head? with
  | none => ⟨[], [], compromises⟩
  | some s0 =>
    let pairs := (allCriteriaOf scores).map (fun c => (c, strongWeakFor scores c s0))
    ⟨pairs.map (fun p => (p.1, p.2.1.option)),
     pairs.map (fun p => (p.1, p.2.2.option)),
     compromises⟩

/-- Complete evaluation result (core.ts `EvaluationResult`). -/
structure EvaluationResult where
  scores : List OptionScore
  rankings : List RankedOption
  tradeOffs : TradeOffAnalysis
deriving DecidableEq

/-- The error codes of ComparisonEngine.validateOptionCount. -/
def validateOptionCountErrors (options : List TechnicalOption) : List String :=
  if options.length < 2 then ["OPTIONS_TOO_FEW"]
  else if 3 < options.length then ["OPTIONS_TOO_MANY"]
  else []

/-- The error codes of ComparisonEngine.validateSingleOption (its warnings
do not influence control flow). -/
def validateSingleOptionErrors (o : TechnicalOption) : List String :=
  (match o.name with
   | none => ["OPTION_NAME_INVALID"]
   | some s => if (strTrim s).length = 0 then ["OPTION_NAME_EMPTY"] else []) ++
  (match o.category with
   | none => ["OPTION_CATEGORY_INVALID"]
   | some c => if c = "" then ["OPTION_CATEGORY_INVALID"] else [])

/-- The duplicate key of an option: lowercased name, a dash, then the
category (a missing category stringifies to "undefined" in the template
literal). -/
def dupKey (o : TechnicalOption) (s : String) : String :=
  strToLower s ++ "-" ++ (match o.category with
    | some c => c
    | none => "undefined")

/-- The error codes of ComparisonEngine.validateNoDuplicates: options with a
truthy name whose key was already seen. -/
def dupErrorsAux (seen : List String) : List TechnicalOption → List String
  | [] => []
  | o :: t =>
    match o.name with
    | some s =>
      if s = "" then dupErrorsAux seen t
      else if dupKey o s ∈ seen then "OPTION_DUPLICATE" :: dupErrorsAux seen t
      else dupErrorsAux (dupKey o s :: seen) t
    | none => dupErrorsAux seen t

/-- ComparisonEngine.validateNoDuplicates error codes. -/
def dupErrors (options : List TechnicalOption) : List String :=
  dupErrorsAux [] options

/-- The error codes of ComparisonEngine.validateTechnicalOptions: a bad
count short-circuits; otherwise per-option structural errors, then
duplicates (category consistency only warns). -/
def validateTechnicalOptionsErrors (options : List TechnicalOption) : List String :=
  let countErrors := validateOptionCountErrors options
  if countErrors ≠ [] then countErrors
  else (options.foldr (fun o acc => validateSingleOptionErrors o ++ acc) []) ++
    dupErrors options

/-- ComparisonEngine.evaluate: throw on validation errors, otherwise run the
full scoring pipeline. -/
def evaluate (options : List TechnicalOption) (k : UserConstraints) :
    Except String EvaluationResult :=
  if validateTechnicalOptionsErrors options ≠ [] then .error "Invalid options"
  else
    let processedOptions := processOptions options
    let scores := calculateScores processedOptions k
    let scores := applyContextualAdjustments scores k
    let rankings := rankOptions scores
    let tradeOffs := generateTradeOffAnalysis scores k
    .ok ⟨scores, rankings, tradeOffs⟩

/-- An OptionScore as the JS runtime sees it: the `criteriaScores` field is
a reference into a heap of records.  `{ ...score }` copies this reference,
not the record. -/
structure OptionScoreRef where
  option : TechnicalOption
  csRef : ℕ
  weightedScore : ℚ
  normalizedScore : ℤ
deriving DecidableEq

/-- A heap of criteria-score records, indexed by `csRef`. -/
abbrev CsHeap := List (List (String × ℚ))

/-- Read a criteria-score record from the heap. -/
def heapGet (h : CsHeap) (r : ℕ) : List (String × ℚ) := h.getD r []

/-- Write a criteria-score record to the heap. -/
def heapSet (h : CsHeap) (r : ℕ) (v : List (String × ℚ)) : CsHeap := h.set r v

/-- ComparisonEngine.applyContextualAdjustments with the aliasing of the JS
original made explicit: `const adjustedScore = { ...score }` copies `csRef`,
so the clamped adjustments are written through it into the very record the
input OptionScore refers to; only `weightedScore` / `normalizedScore` are
fields of the fresh copy. -/
def applyContextualAdjustmentsHeap (scores : List OptionScoreRef)
    (k : UserConstraints) (h : CsHeap) : List OptionScoreRef × CsHeap :=
  match scores with
  | [] => ([], h)
  | s :: rest =>
    let adjustments := calculateContextualAdjustments s.option k
    let cs := adjustments.foldl (fun m kv => adjustExisting m kv.1 kv.2)
      (heapGet h s.csRef)
    let h2 := heapSet h s.csRef cs
    let w := calculateWeightedScore cs k.priorities
    let out := applyContextualAdjustmentsHeap rest k h2
    (⟨s.option, s.csRef, w, jsRound w⟩ :: out.1, out.2)

/-- OutputGenerator.mapPriorityToCriterion. -/
def mapPriorityToCriterion (priority : String) : String :=
  if priority = "cost" then COST
  else if priority = "performance" then PERFORMANCE
  else if priority = "easeOfUse" then LEARNING_CURVE
  else if priority = "scalability" then SCALABILITY
  else if priority = "vendorLockIn" then VENDOR_LOCK_IN
  else priority

/-- OutputGenerator.calculatePriorityAlignment: weighted average (weights =
normalized, non-emphasized priorities) of the top option's scores on the
five priority-mapped criteria, a missing criterion defaulting to 50. -/
def calculatePriorityAlignment (optionScore : OptionScore) (k : UserConstraints) : ℚ :=
  let np := normalizePriorities k.priorities
  let entries : List (String × ℚ) :=
    [("cost", np.cost), ("performance", np.performance), ("easeOfUse", np.easeOfUse),
     ("scalability", np.scalability), ("vendorLockIn", np.vendorLockIn)]
  let acc := entries.foldl
    (fun (a : ℚ × ℚ) pw =>
      let criterion := mapPriorityToCriterion pw.1
      let score := (optionScore.criteriaScores.lookup criterion).getD 50
      (a.1 + score / 100 * pw.2, a.2 + pw.2))
    (0, 0)
  if 0 < acc.2 then acc.1 / acc.2 else 1/2

/-- The top-ranked option's OptionScore, found by name (used both for the
priority-alignment adjustment and the consistency bonus). -/
def topScoreOf (result : EvaluationResult) : Option OptionScore :=
  match result.rankings.head? with
  | some top => result.scores.find? (fun s => optNameStr s.option = optNameStr top.option)
  | none => none

/-- Population variance of the top option's criteria scores, the quantity
whose square root is the standard deviation in
OutputGenerator.calculateConsistencyBonus.  The JS code divides by the
number of scores; an empty record (never produced by the pipeline, which
always emits six criteria) would be NaN in JS and is excluded by hypothesis
in the theorems below. -/
def varOfScores (cs : List (String × ℚ)) : ℚ :=
  let scores := cs.map Prod.snd
  let n : ℚ := scores.length
  let avgScore := scores.sum / n
  (scores.map (fun s => (s - avgScore) ^ 2)).sum / n

/-- The gap-based base confidence of
OutputGenerator.calculateRecommendationConfidence. -/
def confidenceBase (scoreGap : ℚ) : ℚ :=
  if 20 < scoreGap then 9/10
  else if 10 < scoreGap then 3/4
  else if 5 < scoreGap then 3/5
  else 2/5

/-- calculateRecommendationConfidence up to and including the
priority-alignment adjustment (everything before the consistency bonus);
fewer than two rankings return 0.5 immediately. -/
def confidenceAfterAlignment (result : EvaluationResult) (k : UserConstraints) : ℚ :=
  match result.rankings with
  | r1 :: r2 :: _ =>
    let base := confidenceBase (r1.score - r2.score)
    match result.scores.find? (fun s => optNameStr s.option = optNameStr r1.option) with
    | some topOption =>
      min 1 (base + (calculatePriorityAlignment topOption k - 1/2) * (1/5))
    | none => base
  | _ => 1/2

/-- OutputGenerator.calculateRecommendationConfidence as a relation: `c` is
the returned confidence.  The standard deviation `s` of the top option's
criteria scores is characterized by `s ≥ 0 ∧ s² = variance` (it is a real
square root, in general irrational); the consistency bonus is
`min(0.2, max(0, (20 − s)/100))` when the top score record is found and 0
otherwise, and the result is `max(0.1, min(1, confidence + bonus))`. -/
def ConfidenceOf (result : EvaluationResult) (k : UserConstraints) (c : ℝ) : Prop :=
  match result.rankings with
  | _ :: _ :: _ =>
    match topScoreOf result with
    | some topScore =>
      ∃ s : ℝ, 0 ≤ s ∧ s ^ 2 = ((varOfScores topScore.criteriaScores : ℚ) : ℝ) ∧
        c = max (1/10) (min 1 (min 1 (((confidenceAfterAlignment result k : ℚ) : ℝ) +
          min (1/5) (max 0 ((20 - s) / 100)))))
    | none =>
      c = max (1/10) (min 1 (min 1 (((confidenceAfterAlignment result k : ℚ) : ℝ) + 0)))
  | _ => c = 1/2


/-- A criteria-score record whose values all lie in [0,100]. -/
def Bounded (m : List (String × ℚ)) : Prop := ∀ kv ∈ m, 0 ≤ kv.2 ∧ kv.2 ≤ 100

theorem clamp0100_mem (x : ℚ) : 0 ≤ clamp0100 x ∧ clamp0100 x ≤ 100 := by
  unfold clamp0100
  constructor
  · exact le_min (by norm_num) (le_max_left 0 x)
  · exact min_le_left 100 (max 0 x)

theorem lookup_mem {m : List (String × ℚ)} {k : String} {v : ℚ}
    (h : m.lookup k = some v) : (k, v) ∈ m := by
  induction m with
  | nil => simp [List.lookup] at h
  | cons hd tl ih =>
    rcases hd with ⟨a, b⟩
    rw [List.lookup] at h
    by_cases hk : k = a
    · subst hk
      simp at h
      subst h
      exact List.mem_cons_self _ _
    · have hbeq : (k == a) = false := beq_false_of_ne hk
      rw [hbeq] at h
      exact List.mem_cons_of_mem _ (ih h)

def kC1 : UserConstraints :=
  ⟨.medium, ⟨0, .low⟩, ⟨.junior, []⟩, .immediate, ⟨3, 3, 3, 3, 3⟩⟩

def oC1 : TechnicalOption := ⟨some "OptionA", some "frontend", none⟩

/-- C1 counterexample: with an immediate timeline and a junior team (and no
experience match) the learningCurve adjustment is the junior rule's 10 — the
later junior assignment overwrites the timeline rule's 15 — not the additive
stack 15 + 10 = 25 the original claim describes. -/
theorem C1_counterexample :
    (calculateContextualAdjustments oC1 kC1).lookup LEARNING_CURVE = some 10 ∧
    (calculateContextualAdjustments oC1 kC1).lookup LEARNING_CURVE ≠ some (15 + 10) := by
  have h : (calculateContextualAdjustments oC1 kC1).lookup LEARNING_CURVE = some 10 := rfl
  refine ⟨h, ?_⟩
  rw [h]
  simp only [ne_eq, Option.some.injEq]
  norm_num

set_option maxHeartbeats 1000000 in
/-- C1 (amended): contextual adjustments do not accumulate; each criterion
holds the value written by the last firing rule, in source order budget,
timeline, team skill, experience match, scale.  So learningCurve is 20 under
an experience match, otherwise 10 for a junior team (this assignment runs
after and overwrites the immediate-timeline 15), otherwise 15 for an
immediate timeline; maintainability is 10 under an experience match,
otherwise 5 for a junior team; scalability is 15 when users > 100000 or
traffic is high, otherwise 10 for a long timeline; performance is 10 under
the scale rule, otherwise 5 for a senior team, otherwise 5 for a high
budget; cost is 10 for a low budget. -/
theorem C1_amended (o : TechnicalOption) (k : UserConstraints) :
    (calculateContextualAdjustments o k).lookup LEARNING_CURVE =
      (if experienceMatch o k then some 20
       else if k.team.skillLevel = .junior then some 10
       else if k.timeline = .immediate then some 15
       else none) ∧
    (calculateContextualAdjustments o k).lookup MAINTAINABILITY =
      (if experienceMatch o k then some 10
       else if k.team.skillLevel = .junior then some 5
       else none) ∧
    (calculateContextualAdjustments o k).lookup SCALABILITY =
      (if 100000 < k.scale.users ∨ k.scale.traffic = .high then some 15
       else if k.timeline = .long then some 10
       else none) ∧
    (calculateContextualAdjustments o k).lookup PERFORMANCE =
      (if 100000 < k.scale.users ∨ k.scale.traffic = .high then some 10
       else if k.team.skillLevel = .senior then some 5
       else if k.budget = .high then some 5
       else none) ∧
    (calculateContextualAdjustments o k).lookup COST =
      (if k.budget = .low then some 10 else none) := by
  simp only [calculateContextualAdjustments]
  split_ifs <;> first
  | exact ⟨rfl, rfl, rfl, rfl, rfl⟩
  | simp_all

/-- Impact classification written from the spec's words: `(scoreGap/100) ×
priority` is high above 0.15, medium above 0.08, low otherwise. -/
def impactSpec (scoreGap priority : ℚ) : Impact :=
  if 15/100 < scoreGap / 100 * priority then .high
  else if 8/100 < scoreGap / 100 * priority then .medium
  else .low

/-- C2 counterexample: a 20-point gap on a criterion deprioritized to 1 is
classified 'high', not 'low', since 0.20 × 1 = 0.20 > 0.15. -/
theorem C2_counterexample :
    determineImpact 20 1 = Impact.high ∧ determineImpact 20 1 ≠ Impact.low := by
  have h : determineImpact 20 1 = Impact.high := by norm_num [determineImpact]
  refine ⟨h, ?_⟩
  rw [h]
  simp

theorem C2_amended :
    (∀ d p : ℚ, determineImpact d p = impactSpec d p) ∧
    (∀ (os : OptionScore) (allScores : List OptionScore) (k : UserConstraints)
      (cs : String × ℚ) (m : ℚ),
      cs ∈ os.criteriaScores →
      listMax ((allScores.filter (fun s => optNameStr s.option ≠ optNameStr os.option)).map
        (fun s => (s.criteriaScores.lookup cs.1).getD 0)) = some m →
      20 < m - cs.2 →
      (⟨"Choosing " ++ optNameStr os.option ++ " means accepting weaker " ++ cs.1 ++
          " performance",
        determineImpact (m - cs.2) (getCriterionPriority cs.1 k.priorities),
        [cs.1]⟩ : Compromise) ∈ identifyCompromises os allScores k) ∧
    determineImpact 20 5 = Impact.high ∧ determineImpact 20 1 = Impact.high := by
  refine ⟨?_, ?_, by norm_num [determineImpact], by norm_num [determineImpact]⟩
  · intro d p
    simp only [determineImpact, impactSpec]
    split_ifs <;> first | rfl | (exfalso; linarith)
  · intro os allScores k cs m hmem hlm hgt
    refine List.mem_filterMap.mpr ⟨cs, hmem, ?_⟩
    dsimp only
    rw [hlm]
    dsimp only
    rw [if_pos hgt]

theorem getCriterionPriority_ge_one (crit : String) (p : Priorities)
    (hp : 1 ≤ p.cost ∧ 1 ≤ p.performance ∧ 1 ≤ p.easeOfUse ∧ 1 ≤ p.scalability ∧
      1 ≤ p.vendorLockIn) :
    1 ≤ getCriterionPriority crit p := by
  obtain ⟨h1, h2, h3, h4, h5⟩ := hp
  unfold getCriterionPriority
  split_ifs <;> first | assumption | exact le_max_of_le_left h1 | norm_num

theorem determineImpact_high (d p : ℚ) (hd : 20 < d) (hp : 1 ≤ p) :
    determineImpact d p = Impact.high := by
  unfold determineImpact
  rw [if_pos]
  have h1 : (1:ℚ)/5 < d / 100 := by linarith
  nlinarith

theorem C10_all_compromises_high (os : OptionScore) (allScores : List OptionScore)
    (k : UserConstraints)
    (hp : (1 ≤ k.priorities.cost ∧ k.priorities.cost ≤ 5) ∧
      (1 ≤ k.priorities.performance ∧ k.priorities.performance ≤ 5) ∧
      (1 ≤ k.priorities.easeOfUse ∧ k.priorities.easeOfUse ≤ 5) ∧
      (1 ≤ k.priorities.scalability ∧ k.priorities.scalability ≤ 5) ∧
      (1 ≤ k.priorities.vendorLockIn ∧ k.priorities.vendorLockIn ≤ 5)) :
    ∀ c ∈ identifyCompromises os allScores k, c.impact = Impact.high := by
  intro c hc
  unfold identifyCompromises at hc
  rw [List.mem_filterMap] at hc
  obtain ⟨cs, hmem, hsome⟩ := hc
  dsimp only at hsome
  split at hsome
  · exact absurd hsome (by simp)
  · split at hsome
    case isTrue m heq hgt =>
      injection hsome with h2
      subst h2
      exact determineImpact_high _ _ hgt
        (getCriterionPriority_ge_one cs.1 k.priorities
          ⟨hp.1.1, hp.2.1.1, hp.2.2.1.1, hp.2.2.2.1.1, hp.2.2.2.2.1⟩)
    case isFalse => exact absurd hsome (by simp)

def osW2 : OptionScore := ⟨⟨some "A", some "frontend", none⟩, [(COST, 30)], 30, 30⟩

def osW2b : OptionScore := ⟨⟨some "B", some "frontend", none⟩, [(COST, 60)], 60, 60⟩

def kW2 : UserConstraints :=
  ⟨.medium, ⟨0, .low⟩, ⟨.mixed, []⟩, .medium, ⟨1, 1, 1, 1, 1⟩⟩

theorem C2_witness :
    ((COST, (30:ℚ)) ∈ osW2.criteriaScores) ∧ (20 < (60:ℚ) - 30) ∧
    (⟨"Choosing " ++ optNameStr osW2.option ++ " means accepting weaker " ++ COST ++
        " performance",
      determineImpact (60 - 30) (getCriterionPriority COST kW2.priorities),
      [COST]⟩ : Compromise) ∈ identifyCompromises osW2 [osW2, osW2b] kW2 := by
  refine ⟨by simp [osW2], by norm_num, ?_⟩
  exact C2_amended.2.1 osW2 [osW2, osW2b] kW2 (COST, 30) 60 (by simp [osW2])
    (by simp [osW2, osW2b, listMax, optNameStr, COST]) (by norm_num)

def osW10 : OptionScore := ⟨⟨some "A", some "frontend", none⟩, [(COST, 10)], 10, 10⟩

def osW10b : OptionScore := ⟨⟨some "B", some "frontend", none⟩, [(COST, 40)], 40, 40⟩

def kW10 : UserConstraints :=
  ⟨.medium, ⟨0, .low⟩, ⟨.mixed, []⟩, .medium, ⟨1, 2, 3, 4, 5⟩⟩

def cW10 : Compromise :=
  ⟨"Choosing A means accepting weaker cost performance", Impact.high, [COST]⟩

theorem C10_witness :
    (1 ≤ kW10.priorities.cost ∧ kW10.priorities.cost ≤ 5) ∧ cW10.impact = Impact.high := by
  refine ⟨by norm_num [kW10], ?_⟩
  refine C10_all_compromises_high osW10 [osW10, osW10b] kW10
    (by norm_num [kW10]) cW10 ?_
  have h := C2_amended.2.1 osW10 [osW10, osW10b] kW10 (COST, 10) 40
    (by simp [osW10])
    (by simp [osW10, osW10b, listMax, optNameStr, COST])
    (by norm_num)
  have hc : cW10 =
      (⟨"Choosing " ++ optNameStr osW10.option ++ " means accepting weaker " ++ COST ++
          " performance",
        determineImpact (40 - 10) (getCriterionPriority COST kW10.priorities),
        [COST]⟩ : Compromise) := by
    have hs : "Choosing " ++ optNameStr osW10.option ++ " means accepting weaker " ++
        COST ++ " performance" = "Choosing A means accepting weaker cost performance" := by
      decide
    have hi : determineImpact (40 - 10) (getCriterionPriority COST kW10.priorities) =
        Impact.high := by
      norm_num [determineImpact, getCriterionPriority, COST, kW10]
    rw [hs, hi]
    rfl
  rw [hc]
  exact h

/-- C3 heap-model fixture: one OptionScore whose criteria record lives at
heap cell 0. -/
def csHeapC3 : CsHeap :=
  [[(COST, 70), (PERFORMANCE, 50), (SCALABILITY, 50), (LEARNING_CURVE, 50),
    (VENDOR_LOCK_IN, 50), (MAINTAINABILITY, 50)]]

/-- The OptionScore reference used by the C3 theorem. -/
def osRefC3 : OptionScoreRef := ⟨⟨some "A", some "frontend", none⟩, 0, 55, 55⟩

/-- Constraints with budget `low`, so the contextual +10 cost adjustment
fires. -/
def kC3 : UserConstraints :=
  ⟨.low, ⟨0, .low⟩, ⟨.mixed, []⟩, .medium, ⟨3, 3, 3, 3, 3⟩⟩

/-- C3: applyContextualAdjustments mutates its input.  `{ ...score }` copies
only the criteriaScores reference, so the clamped adjusted value (cost 70 →
80) is written into the record the input OptionScore points at: after the
call the heap cell referenced by the input holds 80 where it held 70. -/
theorem C3_input_mutated :
    (heapGet csHeapC3 0).lookup COST = some 70 ∧
    (heapGet (applyContextualAdjustmentsHeap [osRefC3] kC3 csHeapC3).2
      osRefC3.csRef).lookup COST = some 80 ∧
    (applyContextualAdjustmentsHeap [osRefC3] kC3 csHeapC3).2 ≠ csHeapC3 := by
  have hadj : calculateContextualAdjustments osRefC3.option kC3 = [(COST, 10)] := by
    simp [calculateContextualAdjustments, osRefC3, kC3, experienceMatch, rset]
  have hcell : (applyContextualAdjustmentsHeap [osRefC3] kC3 csHeapC3).2 =
      [[(COST, 80), (PERFORMANCE, 50), (SCALABILITY, 50), (LEARNING_CURVE, 50),
        (VENDOR_LOCK_IN, 50), (MAINTAINABILITY, 50)]] := by
    simp only [applyContextualAdjustmentsHeap, hadj, List.foldl_cons, List.foldl_nil]
    norm_num [adjustExisting, heapGet, heapSet, csHeapC3, osRefC3, rset, clamp0100,
      List.lookup, COST, PERFORMANCE, SCALABILITY, LEARNING_CURVE, VENDOR_LOCK_IN,
      MAINTAINABILITY]
    decide
  refine ⟨rfl, ?_, ?_⟩
  · rw [hcell]
    rfl
  · rw [hcell]
    simp [csHeapC3]

/-- C6: an option whose category has no entry in the knowledge base is
scored by the generic criteria (constant 50) and no scoring rules apply, so
its comprehensive evaluation is exactly 50 on all six standard criteria. -/
theorem C6_unknown_category_neutral (o : TechnicalOption)
    (h : domainKnowledgeFor o.category = none) :
    getComprehensiveEvaluation o =
      [(COST, 50), (PERFORMANCE, 50), (SCALABILITY, 50), (LEARNING_CURVE, 50),
       (VENDOR_LOCK_IN, 50), (MAINTAINABILITY, 50)] := by
  unfold getComprehensiveEvaluation applyScoreAdjustments evaluateOption
    getCriteriaForCategory getScoringRulesForCategory
  rw [h]
  rfl

/-- C6 witness: the category `frontend` (and any other unrecognized string)
has no knowledge-base entry, and a frontend option evaluates to all six
criteria at exactly 50. -/
theorem C6_witness :
    domainKnowledgeFor (some "frontend") = none ∧
    getComprehensiveEvaluation ⟨some "React", some "frontend", none⟩ =
      [(COST, 50), (PERFORMANCE, 50), (SCALABILITY, 50), (LEARNING_CURVE, 50),
       (VENDOR_LOCK_IN, 50), (MAINTAINABILITY, 50)] :=
  ⟨rfl, C6_unknown_category_neutral _ rfl⟩

theorem insort_length (x : OptionScore) (l : List OptionScore) :
    (insort x l).length = l.length + 1 := by
  induction l with
  | nil => rfl
  | cons h t ih =>
    rw [insort]
    split
    · simp only [List.length_cons, ih]
    · simp [List.length_cons]

theorem sortDesc_length (l : List OptionScore) : (sortDesc l).length = l.length := by
  induction l with
  | nil => rfl
  | cons h t ih => rw [sortDesc, insort_length, ih, List.length_cons]

theorem withRanks_map_rank (l : List OptionScore) (i : ℕ) :
    (withRanks l i).map (·.rank) = List.range' i l.length := by
  induction l generalizing i with
  | nil => rfl
  | cons h t ih => simp [withRanks, ih, List.range'_succ]

theorem insort_head_or (x : OptionScore) (l : List OptionScore) :
    (insort x l).head? = some x ∨ (insort x l).head? = l.head? := by
  cases l with
  | nil => left; rfl
  | cons h t =>
    rw [insort]
    split
    · right; rfl
    · left; rfl

theorem chain'_insort (x : OptionScore) (l : List OptionScore)
    (h : l.Chain' (fun a b => b.weightedScore ≤ a.weightedScore)) :
    (insort x l).Chain' (fun a b => b.weightedScore ≤ a.weightedScore) := by
  induction l with
  | nil => simp [insort]
  | cons hd tl ih =>
    rw [List.chain'_cons'] at h
    obtain ⟨hhd, htl⟩ := h
    rw [insort]
    split
    case isTrue hlt =>
      rw [List.chain'_cons']
      refine ⟨?_, ih htl⟩
      intro b hb
      rcases insort_head_or x tl with h1 | h1
      · rw [h1] at hb
        simp only [Option.mem_def, Option.some.injEq] at hb
        subst hb
        exact le_of_lt hlt
      · rw [h1] at hb
        exact hhd b hb
    case isFalse hge =>
      rw [List.chain'_cons']
      refine ⟨?_, ?_⟩
      · intro b hb
        simp only [List.head?_cons, Option.mem_def, Option.some.injEq] at hb
        subst hb
        exact not_lt.mp hge
      · rw [List.chain'_cons']
        exact ⟨hhd, htl⟩

theorem chain'_sortDesc (l : List OptionScore) :
    (sortDesc l).Chain' (fun a b => b.weightedScore ≤ a.weightedScore) := by
  induction l with
  | nil => simp [sortDesc]
  | cons h t ih => exact chain'_insort h _ ih

theorem withRanks_head? (l : List OptionScore) (j : ℕ) :
    (withRanks l j).head? =
      l.head?.map (fun s => (⟨s.option, j, s.weightedScore⟩ : RankedOption)) := by
  cases l <;> rfl

theorem chain'_withRanks (l : List OptionScore) (i : ℕ)
    (h : l.Chain' (fun a b => b.weightedScore ≤ a.weightedScore)) :
    (withRanks l i).Chain' (fun a b => b.score ≤ a.score) := by
  induction l generalizing i with
  | nil => simp [withRanks]
  | cons hd tl ih =>
    rw [List.chain'_cons'] at h
    rw [withRanks, List.chain'_cons']
    refine ⟨?_, ih (i + 1) h.2⟩
    intro b hb
    rw [withRanks_head?] at hb
    rcases ht : tl.head? with _ | s
    · rw [ht] at hb
      simp at hb
    · rw [ht] at hb
      simp only [Option.map_some', Option.mem_def, Option.some.injEq] at hb
      subst hb
      exact h.1 s ht

theorem filter_insort (x : OptionScore) (l : List OptionScore) (c : ℚ) :
    (insort x l).filter (fun s => s.weightedScore = c) =
      if x.weightedScore = c then x :: l.filter (fun s => s.weightedScore = c)
      else l.filter (fun s => s.weightedScore = c) := by
  induction l with
  | nil => simp [insort, List.filter_cons]
  | cons hd tl ih =>
    rw [insort]
    split
    case isTrue hlt =>
      rw [List.filter_cons, List.filter_cons]
      by_cases hx : x.weightedScore = c
      · have hhd : ¬ hd.weightedScore = c := by
          rw [← hx]
          exact (ne_of_gt hlt)
        simp [hx, hhd, ih]
      · simp [hx, ih]
    case isFalse hge =>
      by_cases hx : x.weightedScore = c <;> simp [List.filter_cons, hx]

theorem filter_sortDesc (l : List OptionScore) (c : ℚ) :
    (sortDesc l).filter (fun s => s.weightedScore = c) =
      l.filter (fun s => s.weightedScore = c) := by
  induction l with
  | nil => rfl
  | cons h t ih =>
    rw [sortDesc, filter_insort, ih, List.filter_cons]
    by_cases hx : h.weightedScore = c <;> simp [hx]

theorem filter_withRanks (l : List OptionScore) (i : ℕ) (c : ℚ) :
    ((withRanks l i).filter (fun r => r.score = c)).map (fun r => r.option) =
      (l.filter (fun s => s.weightedScore = c)).map (fun s => s.option) := by
  induction l generalizing i with
  | nil => rfl
  | cons hd tl ih =>
    rw [withRanks, List.filter_cons, List.filter_cons]
    by_cases hx : hd.weightedScore = c <;> simp [hx, ih]

/-- C7: rankOptions is total and order-correct: the ranks are exactly the
dense sequence 1..N in output order; scores along the output are
non-increasing (so rank 1's score ≥ rank 2's ≥ rank 3's); and for every
score value the options carrying it appear in the output in their original
input order (stability of the sort). -/
theorem C7_rank_total_ordered_stable (scores : List OptionScore) :
    (rankOptions scores).map (fun r => r.rank) = List.range' 1 scores.length ∧
    (rankOptions scores).Chain' (fun a b => b.score ≤ a.score) ∧
    ∀ c : ℚ, ((rankOptions scores).filter (fun r => r.score = c)).map (fun r => r.option) =
      (scores.filter (fun s => s.weightedScore = c)).map (fun s => s.option) := by
  refine ⟨?_, ?_, ?_⟩
  · rw [rankOptions, withRanks_map_rank, sortDesc_length]
  · exact chain'_withRanks _ _ (chain'_sortDesc scores)
  · intro c
    rw [rankOptions, filter_withRanks, filter_sortDesc]

/-- The duplicate keys of the truthy-named options, in order (the values the
`seen` set of validateNoDuplicates accumulates). -/
def keysOf (options : List TechnicalOption) : List String :=
  options.filterMap (fun o => match o.name with
    | some s => if s = "" then none else some (dupKey o s)
    | none => none)

theorem dupErrorsAux_eq_nil_iff (l : List TechnicalOption) :
    ∀ seen : List String,
      dupErrorsAux seen l = [] ↔ (keysOf l).Nodup ∧ ∀ k ∈ keysOf l, k ∉ seen := by
  induction l with
  | nil => intro seen; simp [dupErrorsAux, keysOf]
  | cons o t ih =>
    intro seen
    rw [dupErrorsAux]
    split
    next s hn =>
      by_cases hs : s = ""
      · rw [if_pos hs]
        have hk : keysOf (o :: t) = keysOf t := by
          simp [keysOf, List.filterMap_cons, hn, hs]
        rw [hk]
        exact ih seen
      · rw [if_neg hs]
        have hk : keysOf (o :: t) = dupKey o s :: keysOf t := by
          simp [keysOf, List.filterMap_cons, hn, hs]
        rw [hk]
        by_cases hkm : dupKey o s ∈ seen
        · rw [if_pos hkm]
          constructor
          · intro h
            simp at h
          · rintro ⟨-, hall⟩
            exact absurd hkm (hall _ (List.mem_cons_self _ _))
        · rw [if_neg hkm, ih (dupKey o s :: seen)]
          constructor
          · rintro ⟨hnd, hall⟩
            have hkT : dupKey o s ∉ keysOf t := fun hmem =>
              hall _ hmem (List.mem_cons_self _ _)
            refine ⟨List.nodup_cons.mpr ⟨hkT, hnd⟩, ?_⟩
            intro k hk2
            rcases List.mem_cons.mp hk2 with rfl | hkt
            · exact hkm
            · exact fun hin => hall k hkt (List.mem_cons_of_mem _ hin)
          · rintro ⟨hnd', hall'⟩
            obtain ⟨hkT, hnd⟩ := List.nodup_cons.mp hnd'
            refine ⟨hnd, ?_⟩
            intro k hk2 hmem
            rcases List.mem_cons.mp hmem with rfl | hin
            · exact hkT hk2
            · exact hall' k (List.mem_cons_of_mem _ hk2) hin
    next hn =>
      have hk : keysOf (o :: t) = keysOf t := by
        simp [keysOf, List.filterMap_cons, hn]
      rw [hk]
      exact ih seen

theorem dupErrors_eq_nil_iff (options : List TechnicalOption) :
    dupErrors options = [] ↔ (keysOf options).Nodup := by
  rw [dupErrors, dupErrorsAux_eq_nil_iff]
  simp

/-- The concatenation of the per-option structural error codes. -/
def perOptionErrors (options : List TechnicalOption) : List String :=
  options.foldr (fun o acc => validateSingleOptionErrors o ++ acc) []

theorem perOptionErrors_eq_nil_iff (options : List TechnicalOption) :
    perOptionErrors options = [] ↔
      ∀ o ∈ options, validateSingleOptionErrors o = [] := by
  induction options with
  | nil => simp [perOptionErrors]
  | cons o t ih =>
    simp [perOptionErrors, List.foldr_cons, List.append_eq_nil] at *
    intro _
    exact ih

theorem validateSingleOptionErrors_eq_nil_iff (o : TechnicalOption) :
    validateSingleOptionErrors o = [] ↔
      (∃ s, o.name = some s ∧ (strTrim s).length ≠ 0) ∧
      (∃ c, o.category = some c ∧ c ≠ "") := by
  unfold validateSingleOptionErrors
  rcases o.name with _ | s <;> rcases o.category with _ | c <;>
    simp [List.append_eq_nil]

theorem validateTechnicalOptionsErrors_split (options : List TechnicalOption) :
    validateTechnicalOptionsErrors options =
      if validateOptionCountErrors options ≠ [] then validateOptionCountErrors options
      else perOptionErrors options ++ dupErrors options := rfl

/-- C9: evaluate aborts (throws, modelled as `.error`) before any scoring
whenever the option count is outside 2..3, whenever an option's name is
missing/non-string (`none`) or trims to empty, and whenever two options
share the same name+category pair (name lowercased, category exact);
whereas for a structurally valid option set — whatever the categories
(unknown or mixed) and even with no metadata — evaluation returns a
complete result. -/
theorem C9_validation_gates (options : List TechnicalOption) (k : UserConstraints) :
    ((options.length < 2 ∨ 3 < options.length) →
      evaluate options k = .error "Invalid options") ∧
    ((∃ o ∈ options, o.name = none ∨ ∃ s, o.name = some s ∧ (strTrim s).length = 0) →
      evaluate options k = .error "Invalid options") ∧
    (∀ (l1 : List TechnicalOption) (o1 : TechnicalOption) (l2 : List TechnicalOption)
      (o2 : TechnicalOption) (l3 : List TechnicalOption) (s1 s2 : String),
      options = l1 ++ o1 :: l2 ++ o2 :: l3 →
      o1.name = some s1 → o2.name = some s2 → s1 ≠ "" → s2 ≠ "" →
      strToLower s1 = strToLower s2 → o1.category = o2.category →
      evaluate options k = .error "Invalid options") ∧
    ((2 ≤ options.length ∧ options.length ≤ 3 ∧
      (∀ o ∈ options, ∃ s, o.name = some s ∧ (strTrim s).length ≠ 0) ∧
      (∀ o ∈ options, ∃ c, o.category = some c ∧ c ≠ "") ∧
      (keysOf options).Nodup) →
      ∃ r, evaluate options k = Except.ok r) := by
  refine ⟨?_, ?_, ?_, ?_⟩
  · -- bad count
    intro hcount
    have hc : validateOptionCountErrors options ≠ [] := by
      unfold validateOptionCountErrors
      rcases hcount with h | h
      · rw [if_pos h]; simp
      · rw [if_neg (by omega), if_pos h]; simp
    have herr : validateTechnicalOptionsErrors options ≠ [] := by
      rw [validateTechnicalOptionsErrors_split, if_pos hc]
      exact hc
    unfold evaluate
    rw [if_pos herr]
  · -- bad name
    intro hbad
    obtain ⟨o, hmem, hname⟩ := hbad
    have hone : validateSingleOptionErrors o ≠ [] := by
      intro hnil
      rw [validateSingleOptionErrors_eq_nil_iff] at hnil
      obtain ⟨⟨s, hs, hlen⟩, -⟩ := hnil
      rcases hname with h | ⟨s', hs', hlen'⟩
      · rw [h] at hs; exact Option.noConfusion hs
      · rw [hs'] at hs
        injection hs with he
        subst he
        exact hlen hlen'
    by_cases hc : validateOptionCountErrors options = []
    · have hper : perOptionErrors options ≠ [] := by
        intro hnil
        exact hone ((perOptionErrors_eq_nil_iff options).mp hnil o hmem)
      have herr : validateTechnicalOptionsErrors options ≠ [] := by
        rw [validateTechnicalOptionsErrors_split, if_neg (by simp [hc])]
        intro hnil
        exact hper (List.append_eq_nil.mp hnil).1
      unfold evaluate
      rw [if_pos herr]
    · have herr : validateTechnicalOptionsErrors options ≠ [] := by
        rw [validateTechnicalOptionsErrors_split, if_pos hc]
        exact hc
      unfold evaluate
      rw [if_pos herr]
  · -- duplicate name+category pair
    intro l1 o1 l2 o2 l3 s1 s2 hopt hn1 hn2 hs1 hs2 hlw hcat
    have hkeq : dupKey o1 s1 = dupKey o2 s2 := by
      unfold dupKey
      rw [hlw, hcat]
    have hkeys : keysOf options =
        keysOf l1 ++ dupKey o1 s1 :: (keysOf l2 ++ dupKey o2 s2 :: keysOf l3) := by
      subst hopt
      simp [keysOf, List.filterMap_append, List.filterMap_cons, hn1, hn2, hs1, hs2]
    have hnotnodup : ¬ (keysOf options).Nodup := by
      intro hnd
      have hcount2 : 2 ≤ (keysOf options).count (dupKey o1 s1) := by
        rw [hkeys, hkeq]
        simp [List.count_append, List.count_cons_self]
        omega
      have hle := List.nodup_iff_count_le_one.mp hnd (dupKey o1 s1)
      omega
    have hdup : dupErrors options ≠ [] := by
      intro hnil
      exact hnotnodup ((dupErrors_eq_nil_iff options).mp hnil)
    by_cases hc : validateOptionCountErrors options = []
    · have herr : validateTechnicalOptionsErrors options ≠ [] := by
        rw [validateTechnicalOptionsErrors_split, if_neg (by simp [hc])]
        intro hnil
        exact hdup (List.append_eq_nil.mp hnil).2
      unfold evaluate
      rw [if_pos herr]
    · have herr : validateTechnicalOptionsErrors options ≠ [] := by
        rw [validateTechnicalOptionsErrors_split, if_pos hc]
        exact hc
      unfold evaluate
      rw [if_pos herr]
  · -- structurally valid: evaluation succeeds
    rintro ⟨hlen2, hlen3, hnames, hcats, hnodup⟩
    have hc : validateOptionCountErrors options = [] := by
      unfold validateOptionCountErrors
      rw [if_neg (by omega), if_neg (by omega)]
    have hper : perOptionErrors options = [] := by
      rw [perOptionErrors_eq_nil_iff]
      intro o hmem
      rw [validateSingleOptionErrors_eq_nil_iff]
      exact ⟨hnames o hmem, hcats o hmem⟩
    have hdup : dupErrors options = [] := (dupErrors_eq_nil_iff options).mpr hnodup
    have herr : validateTechnicalOptionsErrors options = [] := by
      rw [validateTechnicalOptionsErrors_split, if_neg (by simp [hc]), hper, hdup]
      rfl
    refine ⟨⟨applyContextualAdjustments (calculateScores (processOptions options) k) k,
      rankOptions (applyContextualAdjustments (calculateScores (processOptions options) k) k),
      generateTradeOffAnalysis
        (applyContextualAdjustments (calculateScores (processOptions options) k) k) k⟩, ?_⟩
    unfold evaluate
    rw [if_neg (by simp [herr])]

/-- Whether an evaluation produced a result. -/
def isOkB : Except String EvaluationResult → Bool
  | .ok _ => true
  | .error _ => false

/-- A structurally valid option with an unknown category and no metadata. -/
def oW9a : TechnicalOption := ⟨some "React", some "frontend", none⟩

/-- A second option with a different unknown category (mixed categories). -/
def oW9b : TechnicalOption := ⟨some "Vue", some "mobile", none⟩

/-- Constraints for the C9 witness. -/
def kW9 : UserConstraints :=
  ⟨.medium, ⟨0, .low⟩, ⟨.mixed, []⟩, .medium, ⟨3, 3, 3, 3, 3⟩⟩

/-- C9 witness: a single-option list aborts, while two structurally valid
options with unknown and mixed categories and missing metadata evaluate to
a complete result. -/
theorem C9_witness :
    evaluate [oW9a] kW9 = Except.error "Invalid options" ∧
    isOkB (evaluate [oW9a, oW9b] kW9) = true := by
  constructor
  · exact (C9_validation_gates [oW9a] kW9).1 (by norm_num)
  · obtain ⟨r, hr⟩ := (C9_validation_gates [oW9a, oW9b] kW9).2.2.2
      ⟨by norm_num, by norm_num, by decide, by decide, by decide⟩
    rw [hr]
    rfl

theorem bounded_rset {m : List (String × ℚ)} (h : Bounded m) {k : String} {v : ℚ}
    (hv : 0 ≤ v ∧ v ≤ 100) : Bounded (rset m k v) := by
  intro kv hkv
  unfold rset at hkv
  split at hkv
  · obtain ⟨p, hp, hpe⟩ := List.mem_map.mp hkv
    split at hpe
    · subst hpe; exact hv
    · subst hpe; exact h p hp
  · rcases List.mem_append.mp hkv with h1 | h1
    · exact h kv h1
    · simp only [List.mem_singleton] at h1
      subst h1; exact hv

theorem bounded_adjustExisting {m : List (String × ℚ)} (h : Bounded m)
    (k : String) (delta : ℚ) : Bounded (adjustExisting m k delta) := by
  unfold adjustExisting
  split
  · exact bounded_rset h (clamp0100_mem _)
  · exact h

set_option maxHeartbeats 2000000 in
theorem scoringFunction_bounds (cat : Option String) (c : EvaluationCriteria)
    (hc : c ∈ getCriteriaForCategory cat) (o : TechnicalOption) :
    0 ≤ c.scoringFunction o ∧ c.scoringFunction o ≤ 100 := by
  unfold getCriteriaForCategory at hc
  split at hc
  · -- generic criteria: every scoring function is the constant 50
    simp only [getGenericCriteria, List.mem_cons, List.mem_singleton,
      List.not_mem_nil, or_false] at hc
    rcases hc with rfl | rfl | rfl | rfl | rfl | rfl <;> norm_num
  · next kdom heq =>
    unfold domainKnowledgeFor at heq
    split at heq <;>
      first
      | exact Option.noConfusion heq
      | · injection heq with he
          subst he
          simp only [createCloudProviderKnowledge, createBackendFrameworkKnowledge,
            createDatabaseKnowledge, List.mem_cons, List.mem_singleton,
            List.not_mem_nil, or_false] at hc
          rcases hc with rfl | rfl | rfl | rfl | rfl | rfl <;>
            rcases hm : o.metadata with _ | d <;>
              simp only [scoreCloudCost, scoreCloudPerformance, scoreCloudScalability,
                scoreCloudLearningCurve, scoreCloudVendorLockIn,
                scoreCloudMaintainability, scoreBackendCost, scoreBackendPerformance,
                scoreBackendScalability, scoreBackendLearningCurve,
                scoreBackendVendorLockIn, scoreBackendMaintainability,
                scoreDatabaseCost, scoreDatabasePerformance, scoreDatabaseScalability,
                scoreDatabaseLearningCurve, scoreDatabaseVendorLockIn,
                scoreDatabaseMaintainability, hm] <;>
                first
                | exact clamp0100_mem _
                | norm_num

theorem bounded_evaluateOption (o : TechnicalOption) : Bounded (evaluateOption o) := by
  unfold evaluateOption
  have hgen : ∀ (cs : List EvaluationCriteria) (init : List (String × ℚ)),
      (∀ c ∈ cs, 0 ≤ c.scoringFunction o ∧ c.scoringFunction o ≤ 100) →
      Bounded init →
      Bounded (cs.foldl (fun m c => rset m c.name (c.scoringFunction o)) init) := by
    intro cs
    induction cs with
    | nil => intro init _ h; exact h
    | cons c t ih =>
      intro init hcs hinit
      rw [List.foldl_cons]
      exact ih _ (fun c' hc' => hcs c' (List.mem_cons_of_mem _ hc'))
        (bounded_rset hinit (hcs c (List.mem_cons_self _ _)))
  refine hgen _ [] (fun c hc => scoringFunction_bounds o.category c hc o) ?_
  intro kv h
  simp at h

theorem bounded_foldl_adjust (delta : ℚ) (ks : List String) :
    ∀ m : List (String × ℚ), Bounded m →
      Bounded (ks.foldl (fun acc k => adjustExisting acc k delta) m) := by
  induction ks with
  | nil => intro m h; exact h
  | cons k t ih =>
    intro m h
    rw [List.foldl_cons]
    exact ih _ (bounded_adjustExisting h k delta)

theorem bounded_applyScoreAdjustments (o : TechnicalOption)
    (m : List (String × ℚ)) (h : Bounded m) : Bounded (applyScoreAdjustments o m) := by
  unfold applyScoreAdjustments
  generalize getScoringRulesForCategory o.category = rules
  induction rules generalizing m with
  | nil => exact h
  | cons r t ih =>
    rw [List.foldl_cons]
    apply ih
    split
    · exact bounded_foldl_adjust r.scoreAdjustment r.affectedCriteria m h
    · exact h

theorem bounded_getComprehensiveEvaluation (o : TechnicalOption) :
    Bounded (getComprehensiveEvaluation o) :=
  bounded_applyScoreAdjustments o _ (bounded_evaluateOption o)

/-- All five priority fields nonnegative. -/
def PriNonneg (p : Priorities) : Prop :=
  0 ≤ p.cost ∧ 0 ≤ p.performance ∧ 0 ≤ p.easeOfUse ∧ 0 ≤ p.scalability ∧
    0 ≤ p.vendorLockIn

theorem normalizePriorities_nonneg (p : Priorities) (hp : PriNonneg p) :
    PriNonneg (normalizePriorities p) := by
  obtain ⟨h1, h2, h3, h4, h5⟩ := hp
  simp only [normalizePriorities]
  split
  · exact ⟨by norm_num, by norm_num, by norm_num, by norm_num, by norm_num⟩
  · next htot =>
    have hpos : 0 < p.cost + p.performance + p.easeOfUse + p.scalability +
        p.vendorLockIn := lt_of_le_of_ne (by linarith) (Ne.symm htot)
    exact ⟨div_nonneg h1 hpos.le, div_nonneg h2 hpos.le, div_nonneg h3 hpos.le,
      div_nonneg h4 hpos.le, div_nonneg h5 hpos.le⟩

theorem getEmphasisFactor_pos (q : ℚ) : 0 < getEmphasisFactor q := by
  unfold getEmphasisFactor
  split_ifs <;> norm_num

theorem applyPriorityEmphasis_nonneg (np raw : Priorities) (h : PriNonneg np) :
    PriNonneg (applyPriorityEmphasis np raw) := by
  obtain ⟨h1, h2, h3, h4, h5⟩ := h
  have f1 := getEmphasisFactor_pos raw.cost
  have f2 := getEmphasisFactor_pos raw.performance
  have f3 := getEmphasisFactor_pos raw.easeOfUse
  have f4 := getEmphasisFactor_pos raw.scalability
  have f5 := getEmphasisFactor_pos raw.vendorLockIn
  simp only [applyPriorityEmphasis]
  split
  · next htot =>
    refine ⟨div_nonneg (mul_nonneg h1 f1.le) htot.le,
      div_nonneg (mul_nonneg h2 f2.le) htot.le,
      div_nonneg (mul_nonneg h3 f3.le) htot.le,
      div_nonneg (mul_nonneg h4 f4.le) htot.le,
      div_nonneg (mul_nonneg h5 f5.le) htot.le⟩
  · exact ⟨mul_nonneg h1 f1.le, mul_nonneg h2 f2.le, mul_nonneg h3 f3.le,
      mul_nonneg h4 f4.le, mul_nonneg h5 f5.le⟩

theorem weighted_foldl_bounds (cs : List (String × ℚ)) (hcs : Bounded cs)
    (ws : List (String × ℚ)) (hws : ∀ w ∈ ws, 0 ≤ w.2) :
    ∀ a : ℚ × ℚ, 0 ≤ a.1 → 0 ≤ a.2 → a.1 ≤ 100 * a.2 →
      0 ≤ (ws.foldl (fun (a : ℚ × ℚ) kw =>
          match cs.lookup kw.1 with
          | some s => (a.1 + s * kw.2, a.2 + kw.2)
          | none => a) a).1 ∧
      0 ≤ (ws.foldl (fun (a : ℚ × ℚ) kw =>
          match cs.lookup kw.1 with
          | some s => (a.1 + s * kw.2, a.2 + kw.2)
          | none => a) a).2 ∧
      (ws.foldl (fun (a : ℚ × ℚ) kw =>
          match cs.lookup kw.1 with
          | some s => (a.1 + s * kw.2, a.2 + kw.2)
          | none => a) a).1 ≤
        100 * (ws.foldl (fun (a : ℚ × ℚ) kw =>
          match cs.lookup kw.1 with
          | some s => (a.1 + s * kw.2, a.2 + kw.2)
          | none => a) a).2 := by
  induction ws with
  | nil => intro a h1 h2 h3; exact ⟨h1, h2, h3⟩
  | cons kw t ih =>
    intro a h1 h2 h3
    simp only [List.foldl_cons]
    have hw : 0 ≤ kw.2 := hws kw (List.mem_cons_self _ _)
    have hws' : ∀ w ∈ t, 0 ≤ w.2 := fun w hw' => hws w (List.mem_cons_of_mem _ hw')
    rcases hl : cs.lookup kw.1 with _ | s
    · dsimp only
      exact ih hws' a h1 h2 h3
    · dsimp only
      have hsb := hcs (kw.1, s) (lookup_mem hl)
      refine ih hws' _ ?_ ?_ ?_
      · have := mul_nonneg hsb.1 hw
        simp only []
        linarith
      · simp only []
        linarith
      · have := mul_le_mul_of_nonneg_right hsb.2 hw
        simp only []
        linarith

theorem criteriaMapping_nonneg (ew : Priorities) (h : PriNonneg ew) :
    ∀ w ∈ criteriaMapping ew, 0 ≤ w.2 := by
  obtain ⟨h1, h2, h3, h4, h5⟩ := h
  intro w hw
  simp only [criteriaMapping, List.mem_cons, List.mem_singleton,
    List.not_mem_nil, or_false] at hw
  rcases hw with rfl | rfl | rfl | rfl | rfl | rfl
  · exact h1
  · exact h2
  · exact h4
  · exact h3
  · exact h5
  · have := mul_nonneg h1 (by norm_num : (0:ℚ) ≤ 3/10)
    have := mul_nonneg h2 (by norm_num : (0:ℚ) ≤ 1/5)
    simp only []
    linarith

theorem calculateWeightedScore_bounds (cs : List (String × ℚ)) (p : Priorities)
    (hcs : Bounded cs) (hp : PriNonneg p) :
    0 ≤ calculateWeightedScore cs p ∧ calculateWeightedScore cs p ≤ 100 := by
  simp only [calculateWeightedScore]
  have hew : PriNonneg (applyPriorityEmphasis (normalizePriorities p) p) :=
    applyPriorityEmphasis_nonneg _ _ (normalizePriorities_nonneg p hp)
  have hfold := weighted_foldl_bounds cs hcs
    (criteriaMapping (applyPriorityEmphasis (normalizePriorities p) p))
    (criteriaMapping_nonneg _ hew) (0, 0) (le_refl 0) (le_refl 0) (by norm_num)
  obtain ⟨hf1, hf2, hf3⟩ := hfold
  push_cast at hf1 hf2 hf3
  split
  · next hpos =>
    exact ⟨div_nonneg hf1 (le_of_lt hpos), by
      rw [div_le_iff₀ hpos]
      linarith⟩
  · norm_num

theorem jsRound_bounds (x : ℚ) (h0 : 0 ≤ x) (h1 : x ≤ 100) :
    0 ≤ jsRound x ∧ jsRound x ≤ 100 := by
  unfold jsRound
  constructor
  · exact Int.le_floor.mpr (by push_cast; linarith)
  · have hlt : (⌊x + 1/2⌋ : ℤ) < 101 := Int.floor_lt.mpr (by push_cast; linarith)
    omega

theorem bounded_foldl_adjustKV (adj : List (String × ℚ)) :
    ∀ m : List (String × ℚ), Bounded m →
      Bounded (adj.foldl (fun m kv => adjustExisting m kv.1 kv.2) m) := by
  induction adj with
  | nil => intro m h; exact h
  | cons kv t ih =>
    intro m h
    rw [List.foldl_cons]
    exact ih _ (bounded_adjustExisting h kv.1 kv.2)

/-- C5: after base scoring, rule adjustments and contextual adjustments,
every criterion score lies in [0,100], and so do the recomputed weighted and
normalized scores — each stage clamps, and the weighted score is a
nonnegatively-weighted average of in-range values. -/
theorem C5_scores_in_range (options : List TechnicalOption) (k : UserConstraints)
    (hp : 0 ≤ k.priorities.cost ∧ 0 ≤ k.priorities.performance ∧
      0 ≤ k.priorities.easeOfUse ∧ 0 ≤ k.priorities.scalability ∧
      0 ≤ k.priorities.vendorLockIn) :
    ∀ os ∈ applyContextualAdjustments (calculateScores options k) k,
      (∀ kv ∈ os.criteriaScores, 0 ≤ kv.2 ∧ kv.2 ≤ 100) ∧
      (0 ≤ os.weightedScore ∧ os.weightedScore ≤ 100) ∧
      (0 ≤ os.normalizedScore ∧ os.normalizedScore ≤ 100) := by
  intro os hos
  unfold applyContextualAdjustments at hos
  obtain ⟨s, hs, heq⟩ := List.mem_map.mp hos
  unfold calculateScores at hs
  obtain ⟨o, ho, heq2⟩ := List.mem_map.mp hs
  subst heq2
  subst heq
  have hbase : Bounded (calculateOptionScore o k).criteriaScores :=
    bounded_getComprehensiveEvaluation o
  have hcs := bounded_foldl_adjustKV
    (calculateContextualAdjustments (calculateOptionScore o k).option k) _ hbase
  dsimp only
  exact ⟨hcs, calculateWeightedScore_bounds _ _ hcs hp,
    jsRound_bounds _ (calculateWeightedScore_bounds _ _ hcs hp).1
      (calculateWeightedScore_bounds _ _ hcs hp).2⟩

/-- The option used by the C5 witness. -/
def oW5 : TechnicalOption := ⟨some "A", some "frontend", none⟩

/-- Constraints used by the C5 witness. -/
def kW5 : UserConstraints :=
  ⟨.low, ⟨200000, .high⟩, ⟨.junior, []⟩, .immediate, ⟨5, 4, 3, 2, 1⟩⟩

/-- The first (and only) fully adjusted OptionScore of the C5 witness run. -/
def osW5 : OptionScore :=
  (applyContextualAdjustments (calculateScores [oW5] kW5) kW5).headD ⟨oW5, [], 0, 0⟩

/-- C5 witness: the pipeline output for a concrete option and concrete
constraints has its weighted and normalized scores inside [0,100]. -/
theorem C5_witness :
    (0 ≤ osW5.weightedScore ∧ osW5.weightedScore ≤ 100) ∧
    (0 ≤ osW5.normalizedScore ∧ osW5.normalizedScore ≤ 100) := by
  have hne : applyContextualAdjustments (calculateScores [oW5] kW5) kW5 ≠ [] := by
    simp [applyContextualAdjustments, calculateScores]
  have hmem : osW5 ∈ applyContextualAdjustments (calculateScores [oW5] kW5) kW5 := by
    unfold osW5
    rcases hl : applyContextualAdjustments (calculateScores [oW5] kW5) kW5 with _ | ⟨a, t⟩
    · exact absurd hl hne
    · simp
  have h := C5_scores_in_range [oW5] kW5 (by norm_num [kW5]) osW5 hmem
  exact ⟨h.2.1, h.2.2⟩

/-- The §4.2 emphasis table written from the spec's words: raw value 1→0.5,
2→0.8, 3→1.0, 4→1.2, 5→1.5. -/
def emphasisFactorSpec (raw : ℚ) : ℚ :=
  if raw = 1 then 1/2
  else if raw = 2 then 4/5
  else if raw = 3 then 1
  else if raw = 4 then 6/5
  else if raw = 5 then 3/2
  else 1

/-- §4.2 Step 1 written from the spec's words: normalize the five raw
priorities to weights summing to 1; if all five raw values are 0, use equal
weights 0.2. -/
def specNormalize (p : Priorities) : Priorities :=
  if p.cost = 0 ∧ p.performance = 0 ∧ p.easeOfUse = 0 ∧ p.scalability = 0 ∧
      p.vendorLockIn = 0 then
    ⟨1/5, 1/5, 1/5, 1/5, 1/5⟩
  else
    let total := p.cost + p.performance + p.easeOfUse + p.scalability + p.vendorLockIn
    ⟨p.cost / total, p.performance / total, p.easeOfUse / total, p.scalability / total,
      p.vendorLockIn / total⟩

/-- §4.2 Step 2 written from the spec's words: multiply each normalized
weight by the emphasis factor of its raw value and re-normalize the five
emphasized weights to sum to 1. -/
def specEmphasize (p : Priorities) : Priorities :=
  let base := specNormalize p
  let e : Priorities :=
    ⟨base.cost * emphasisFactorSpec p.cost,
     base.performance * emphasisFactorSpec p.performance,
     base.easeOfUse * emphasisFactorSpec p.easeOfUse,
     base.scalability * emphasisFactorSpec p.scalability,
     base.vendorLockIn * emphasisFactorSpec p.vendorLockIn⟩
  let t := e.cost + e.performance + e.easeOfUse + e.scalability + e.vendorLockIn
  ⟨e.cost / t, e.performance / t, e.easeOfUse / t, e.scalability / t, e.vendorLockIn / t⟩

/-- §4.2 Step 3 written from the spec's words: map the five emphasized
weights onto the six criteria, maintainability carrying the composite weight
0.3·(emphasized cost weight) + 0.2·(emphasized performance weight). -/
def specCriteriaWeights (p : Priorities) : List (String × ℚ) :=
  [(COST, (specEmphasize p).cost), (PERFORMANCE, (specEmphasize p).performance),
   (SCALABILITY, (specEmphasize p).scalability),
   (LEARNING_CURVE, (specEmphasize p).easeOfUse),
   (VENDOR_LOCK_IN, (specEmphasize p).vendorLockIn),
   (MAINTAINABILITY,
     (specEmphasize p).cost * (3/10) + (specEmphasize p).performance * (1/5))]

/-- §4.2 Step 4 written from the spec's words: Σ(criterionScore × weight) /
Σ(weight) over the criteria present in the scores map, or the neutral 50
when no criteria weights apply. -/
def weightedScoreSpec (cs : List (String × ℚ)) (p : Priorities) : ℚ :=
  let present := (specCriteriaWeights p).filter (fun kw => (cs.lookup kw.1).isSome)
  if present = [] then 50
  else ((present.map (fun kw => ((cs.lookup kw.1).getD 0) * kw.2)).sum) /
    ((present.map (fun kw => kw.2)).sum)

theorem emphasisFactor_eq_spec (q : ℚ) : getEmphasisFactor q = emphasisFactorSpec q := by
  unfold getEmphasisFactor emphasisFactorSpec
  split_ifs <;> simp_all

/-- The raw-priority range hypothesis of the §4.2 claims. -/
def PriInRange (p : Priorities) : Prop :=
  (1 ≤ p.cost ∧ p.cost ≤ 5) ∧ (1 ≤ p.performance ∧ p.performance ≤ 5) ∧
  (1 ≤ p.easeOfUse ∧ p.easeOfUse ≤ 5) ∧ (1 ≤ p.scalability ∧ p.scalability ≤ 5) ∧
  (1 ≤ p.vendorLockIn ∧ p.vendorLockIn ≤ 5)

theorem normalize_eq_spec (p : Priorities) (hp : PriInRange p) :
    normalizePriorities p = specNormalize p := by
  obtain ⟨⟨h1, -⟩, ⟨h2, -⟩, ⟨h3, -⟩, ⟨h4, -⟩, ⟨h5, -⟩⟩ := hp
  simp only [normalizePriorities, specNormalize]
  rw [if_neg (by intro h; linarith), if_neg (by rintro ⟨hc, -⟩; linarith)]

theorem specNormalize_pos (p : Priorities) (hp : PriInRange p) :
    0 < (specNormalize p).cost ∧ 0 < (specNormalize p).performance ∧
    0 < (specNormalize p).easeOfUse ∧ 0 < (specNormalize p).scalability ∧
    0 < (specNormalize p).vendorLockIn := by
  obtain ⟨⟨h1, -⟩, ⟨h2, -⟩, ⟨h3, -⟩, ⟨h4, -⟩, ⟨h5, -⟩⟩ := hp
  have htot : 0 < p.cost + p.performance + p.easeOfUse + p.scalability + p.vendorLockIn := by
    linarith
  simp only [specNormalize]
  rw [if_neg (by rintro ⟨hc, -⟩; linarith)]
  exact ⟨div_pos (by linarith) htot, div_pos (by linarith) htot,
    div_pos (by linarith) htot, div_pos (by linarith) htot, div_pos (by linarith) htot⟩

theorem emphasize_eq_spec (p : Priorities) (hp : PriInRange p) :
    applyPriorityEmphasis (normalizePriorities p) p = specEmphasize p := by
  have hbase := specNormalize_pos p hp
  obtain ⟨b1, b2, b3, b4, b5⟩ := hbase
  have f1 := getEmphasisFactor_pos p.cost
  have f2 := getEmphasisFactor_pos p.performance
  have f3 := getEmphasisFactor_pos p.easeOfUse
  have f4 := getEmphasisFactor_pos p.scalability
  have f5 := getEmphasisFactor_pos p.vendorLockIn
  rw [emphasisFactor_eq_spec] at f1 f2 f3 f4 f5
  simp only [applyPriorityEmphasis, specEmphasize, normalize_eq_spec p hp,
    emphasisFactor_eq_spec]
  rw [if_pos]
  have t1 := mul_pos b1 f1
  have t2 := mul_pos b2 f2
  have t3 := mul_pos b3 f3
  have t4 := mul_pos b4 f4
  have t5 := mul_pos b5 f5
  linarith

theorem weighted_foldl_eq_sums (cs : List (String × ℚ)) (ws : List (String × ℚ)) :
    ∀ a : ℚ × ℚ,
      ws.foldl (fun (a : ℚ × ℚ) kw =>
          match cs.lookup kw.1 with
          | some s => (a.1 + s * kw.2, a.2 + kw.2)
          | none => a) a =
        (a.1 + ((ws.filter (fun kw => (cs.lookup kw.1).isSome)).map
            (fun kw => ((cs.lookup kw.1).getD 0) * kw.2)).sum,
         a.2 + ((ws.filter (fun kw => (cs.lookup kw.1).isSome)).map
            (fun kw => kw.2)).sum) := by
  induction ws with
  | nil => intro a; simp
  | cons kw t ih =>
    intro a
    simp only [List.foldl_cons, List.filter_cons]
    rcases hl : cs.lookup kw.1 with _ | s
    · simp only [Option.isSome_none, Bool.false_eq_true, if_false]
      rw [ih a]
    · simp only [Option.isSome_some, if_true]
      rw [ih]
      simp only [List.map_cons, List.sum_cons]
      rw [hl]
      simp only [Option.getD_some]
      refine Prod.ext ?_ ?_ <;> dsimp only <;> ring

theorem emphasisFactorSpec_pos (q : ℚ) : 0 < emphasisFactorSpec q := by
  unfold emphasisFactorSpec
  split_ifs <;> norm_num

theorem specEmphasize_pos (p : Priorities) (hp : PriInRange p) :
    0 < (specEmphasize p).cost ∧ 0 < (specEmphasize p).performance ∧
    0 < (specEmphasize p).easeOfUse ∧ 0 < (specEmphasize p).scalability ∧
    0 < (specEmphasize p).vendorLockIn := by
  obtain ⟨b1, b2, b3, b4, b5⟩ := specNormalize_pos p hp
  have t1 := mul_pos b1 (emphasisFactorSpec_pos p.cost)
  have t2 := mul_pos b2 (emphasisFactorSpec_pos p.performance)
  have t3 := mul_pos b3 (emphasisFactorSpec_pos p.easeOfUse)
  have t4 := mul_pos b4 (emphasisFactorSpec_pos p.scalability)
  have t5 := mul_pos b5 (emphasisFactorSpec_pos p.vendorLockIn)
  have htot : 0 < (specNormalize p).cost * emphasisFactorSpec p.cost +
      (specNormalize p).performance * emphasisFactorSpec p.performance +
      (specNormalize p).easeOfUse * emphasisFactorSpec p.easeOfUse +
      (specNormalize p).scalability * emphasisFactorSpec p.scalability +
      (specNormalize p).vendorLockIn * emphasisFactorSpec p.vendorLockIn := by
    linarith
  simp only [specEmphasize]
  exact ⟨div_pos t1 htot, div_pos t2 htot, div_pos t3 htot, div_pos t4 htot,
    div_pos t5 htot⟩

/-- C4: calculateWeightedScore implements the §4.2 weighting algorithm
stated from the spec's words — emphasis table, re-normalization, composite
maintainability weight, weighted average over the criteria present, and the
neutral 50 when no criteria weights apply. -/
theorem C4_weighted_score_matches_spec (cs : List (String × ℚ)) (p : Priorities)
    (hp : PriInRange p) :
    calculateWeightedScore cs p = weightedScoreSpec cs p := by
  obtain ⟨w1, w2, w3, w4, w5⟩ := specEmphasize_pos p hp
  have hlists : specCriteriaWeights p = criteriaMapping (specEmphasize p) := rfl
  simp only [calculateWeightedScore, weightedScoreSpec, emphasize_eq_spec p hp, hlists]
  rw [weighted_foldl_eq_sums]
  simp only [zero_add]
  have hmem : ∀ kw ∈ (criteriaMapping (specEmphasize p)).filter
      (fun kw => (cs.lookup kw.1).isSome), 0 < kw.2 := by
    intro kw hkw
    have hin := List.mem_of_mem_filter hkw
    simp only [criteriaMapping, List.mem_cons, List.not_mem_nil, or_false] at hin
    rcases hin with rfl | rfl | rfl | rfl | rfl | rfl
    · exact w1
    · exact w2
    · exact w4
    · exact w3
    · exact w5
    · dsimp only
      nlinarith
  rcases hP : (criteriaMapping (specEmphasize p)).filter
      (fun kw => (cs.lookup kw.1).isSome) with _ | ⟨kw, rest⟩
  · simp [hP]
  · have hpos : 0 < ((kw :: rest).map (fun kw => kw.2)).sum := by
      apply List.sum_pos
      · intro x hx
        obtain ⟨kw', hkw', rfl⟩ := List.mem_map.mp hx
        exact hmem kw' (hP ▸ hkw')
      · simp
    rw [hP, if_pos hpos, if_neg (by simp)]

/-- The criteria-score map of the C4 witness (maintainability absent, so the
presence filter is exercised). -/
def csW4 : List (String × ℚ) :=
  [(COST, 80), (PERFORMANCE, 70), (SCALABILITY, 60), (LEARNING_CURVE, 20),
   (VENDOR_LOCK_IN, 40)]

/-- The raw priorities of the C4 witness. -/
def pW4 : Priorities := ⟨5, 1, 3, 2, 4⟩

/-- C4 witness: the code's weighted score and the spec's weighted score agree
on a concrete scores map and concrete in-range priorities. -/
theorem C4_witness :
    PriInRange pW4 ∧ calculateWeightedScore csW4 pW4 = weightedScoreSpec csW4 pW4 :=
  ⟨by norm_num [PriInRange, pW4],
   C4_weighted_score_matches_spec csW4 pW4 (by norm_num [PriInRange, pW4])⟩

theorem lookup_getD_bound {cs : List (String × ℚ)} (hcs : Bounded cs) (key : String) :
    0 ≤ (cs.lookup key).getD 50 ∧ (cs.lookup key).getD 50 ≤ 100 := by
  rcases hl : cs.lookup key with _ | v
  · norm_num
  · exact hcs (key, v) (lookup_mem hl)

theorem alignment_bounds (os : OptionScore) (k : UserConstraints)
    (hp : PriNonneg k.priorities) (hcs : Bounded os.criteriaScores) :
    0 ≤ calculatePriorityAlignment os k ∧ calculatePriorityAlignment os k ≤ 1 := by
  obtain ⟨n1, n2, n3, n4, n5⟩ := normalizePriorities_nonneg k.priorities hp
  have l1 := lookup_getD_bound hcs (mapPriorityToCriterion "cost")
  have l2 := lookup_getD_bound hcs (mapPriorityToCriterion "performance")
  have l3 := lookup_getD_bound hcs (mapPriorityToCriterion "easeOfUse")
  have l4 := lookup_getD_bound hcs (mapPriorityToCriterion "scalability")
  have l5 := lookup_getD_bound hcs (mapPriorityToCriterion "vendorLockIn")
  simp only [calculatePriorityAlignment, List.foldl_cons, List.foldl_nil]
  set s1 := (os.criteriaScores.lookup (mapPriorityToCriterion "cost")).getD 50 with hs1
  set s2 := (os.criteriaScores.lookup (mapPriorityToCriterion "performance")).getD 50 with hs2
  set s3 := (os.criteriaScores.lookup (mapPriorityToCriterion "easeOfUse")).getD 50 with hs3
  set s4 := (os.criteriaScores.lookup (mapPriorityToCriterion "scalability")).getD 50 with hs4
  set s5 := (os.criteriaScores.lookup (mapPriorityToCriterion "vendorLockIn")).getD 50 with hs5
  set w1 := (normalizePriorities k.priorities).cost
  set w2 := (normalizePriorities k.priorities).performance
  set w3 := (normalizePriorities k.priorities).easeOfUse
  set w4 := (normalizePriorities k.priorities).scalability
  set w5 := (normalizePriorities k.priorities).vendorLockIn
  have t1 : 0 ≤ s1 / 100 * w1 ∧ s1 / 100 * w1 ≤ w1 :=
    ⟨mul_nonneg (by linarith [l1.1]) n1,
     mul_le_of_le_one_left n1 (by rw [div_le_one] <;> linarith [l1.2])⟩
  have t2 : 0 ≤ s2 / 100 * w2 ∧ s2 / 100 * w2 ≤ w2 :=
    ⟨mul_nonneg (by linarith [l2.1]) n2,
     mul_le_of_le_one_left n2 (by rw [div_le_one] <;> linarith [l2.2])⟩
  have t3 : 0 ≤ s3 / 100 * w3 ∧ s3 / 100 * w3 ≤ w3 :=
    ⟨mul_nonneg (by linarith [l3.1]) n3,
     mul_le_of_le_one_left n3 (by rw [div_le_one] <;> linarith [l3.2])⟩
  have t4 : 0 ≤ s4 / 100 * w4 ∧ s4 / 100 * w4 ≤ w4 :=
    ⟨mul_nonneg (by linarith [l4.1]) n4,
     mul_le_of_le_one_left n4 (by rw [div_le_one] <;> linarith [l4.2])⟩
  have t5 : 0 ≤ s5 / 100 * w5 ∧ s5 / 100 * w5 ≤ w5 :=
    ⟨mul_nonneg (by linarith [l5.1]) n5,
     mul_le_of_le_one_left n5 (by rw [div_le_one] <;> linarith [l5.2])⟩
  split
  · next hpos =>
    constructor
    · apply div_nonneg _ hpos.le
      linarith [t1.1, t2.1, t3.1, t4.1, t5.1]
    · rw [div_le_one hpos]
      linarith [t1.2, t2.2, t3.2, t4.2, t5.2]
  · norm_num

theorem confidenceBase_bounds (g : ℚ) :
    2/5 ≤ confidenceBase g ∧ confidenceBase g ≤ 9/10 := by
  unfold confidenceBase
  split_ifs <;> norm_num

theorem confidenceAfterAlignment_bounds (result : EvaluationResult)
    (k : UserConstraints) (r1 r2 : RankedOption) (rest : List RankedOption)
    (hr : result.rankings = r1 :: r2 :: rest)
    (hp : PriNonneg k.priorities)
    (hcs : ∀ os, result.scores.find?
      (fun s => optNameStr s.option = optNameStr r1.option) = some os →
      Bounded os.criteriaScores) :
    confidenceBase (r1.score - r2.score) - 1/10 ≤ confidenceAfterAlignment result k ∧
    confidenceAfterAlignment result k ≤
      min 1 (confidenceBase (r1.score - r2.score) + 1/10) := by
  obtain ⟨hb1, hb2⟩ := confidenceBase_bounds (r1.score - r2.score)
  simp only [confidenceAfterAlignment, hr]
  rcases hf : result.scores.find?
      (fun s => optNameStr s.option = optNameStr r1.option) with _ | top
  · rw [hf]
    constructor
    · linarith
    · exact le_min (by linarith) (by linarith)
  · rw [hf]
    have ha := alignment_bounds top k hp (hcs top hf)
    constructor
    · exact le_min (by linarith) (by linarith [ha.1])
    · exact min_le_min (le_refl 1) (by linarith [ha.2])

theorem confidenceOf_bounds (result : EvaluationResult) (k : UserConstraints)
    (c : ℝ) (r1 r2 : RankedOption) (rest : List RankedOption)
    (hr : result.rankings = r1 :: r2 :: rest)
    (hp : PriNonneg k.priorities)
    (hcs : ∀ os, topScoreOf result = some os → Bounded os.criteriaScores)
    (hC : ConfidenceOf result k c) :
    ((confidenceBase (r1.score - r2.score) : ℚ) : ℝ) - 1/10 ≤ c ∧
    c ≤ ((confidenceBase (r1.score - r2.score) : ℚ) : ℝ) + 3/10 ∧ c ≤ 1 := by
  have hbq := confidenceBase_bounds (r1.score - r2.score)
  have hb1 : (2/5 : ℝ) ≤ ((confidenceBase (r1.score - r2.score) : ℚ) : ℝ) := by
    have := Rat.cast_le (K := ℝ) |>.mpr hbq.1
    push_cast at this
    linarith
  have hb2 : ((confidenceBase (r1.score - r2.score) : ℚ) : ℝ) ≤ 9/10 := by
    have := Rat.cast_le (K := ℝ) |>.mpr hbq.2
    push_cast at this
    linarith
  have hfind : ∀ os, result.scores.find?
      (fun s => optNameStr s.option = optNameStr r1.option) = some os →
      Bounded os.criteriaScores := by
    intro os h
    exact hcs os (by simp [topScoreOf, hr, h])
  have hAq := confidenceAfterAlignment_bounds result k r1 r2 rest hr hp hfind
  have hA1 : ((confidenceBase (r1.score - r2.score) : ℚ) : ℝ) - 1/10 ≤
      ((confidenceAfterAlignment result k : ℚ) : ℝ) := by
    have := Rat.cast_le (K := ℝ) |>.mpr hAq.1
    push_cast at this
    linarith
  have hA2 : ((confidenceAfterAlignment result k : ℚ) : ℝ) ≤
      ((confidenceBase (r1.score - r2.score) : ℚ) : ℝ) + 1/10 := by
    have h2 := le_trans hAq.2 (min_le_right _ _)
    have := Rat.cast_le (K := ℝ) |>.mpr h2
    push_cast at this
    linarith
  unfold ConfidenceOf at hC
  rw [hr] at hC
  rcases ht : topScoreOf result with _ | top <;> rw [ht] at hC
  · rw [hC]
    refine ⟨?_, ?_, ?_⟩
    · refine le_trans ?_ (le_max_right _ _)
      refine le_min (by linarith) (le_min (by linarith) (by linarith))
    · refine max_le (by linarith) ?_
      refine le_trans (min_le_right _ _) (le_trans (min_le_right _ _) (by linarith))
    · exact max_le (by norm_num) (min_le_left _ _)
  · obtain ⟨s, hs0, hs2, hceq⟩ := hC
    have hbonus1 : 0 ≤ min (1/5 : ℝ) (max 0 ((20 - s) / 100)) :=
      le_min (by norm_num) (le_max_left _ _)
    have hbonus2 : min (1/5 : ℝ) (max 0 ((20 - s) / 100)) ≤ 1/5 := min_le_left _ _
    rw [hceq]
    refine ⟨?_, ?_, ?_⟩
    · refine le_trans ?_ (le_max_right _ _)
      refine le_min (by linarith) (le_min (by linarith) (by linarith))
    · refine max_le (by linarith) ?_
      refine le_trans (min_le_right _ _) (le_trans (min_le_right _ _) (by linarith))
    · exact max_le (by norm_num) (min_le_left _ _)

/-- C8 (amended): for any evaluation result with in-range data (nonnegative
priorities; the top option's criteria scores present and within [0,100]),
rank-1/rank-2 weighted scores of 90 and 55 (gap 35) give a confidence in
[0.8, 1], and scores of 78 and 77 (gap 1) give a confidence in [0.3, 0.7] —
the spec's tighter 0.85 / 0.5 bounds do not survive the alignment
adjustment (±0.1) and the consistency bonus (+0..0.2). -/
theorem C8_confidence_bands (result : EvaluationResult) (k : UserConstraints)
    (c : ℝ) (hp : PriNonneg k.priorities)
    (hcs : ∀ os, topScoreOf result = some os →
      os.criteriaScores ≠ [] ∧ Bounded os.criteriaScores) :
    (∀ r1 r2 rest, result.rankings = r1 :: r2 :: rest →
      r1.score = 90 → r2.score = 55 → ConfidenceOf result k c →
      (4/5 : ℝ) ≤ c ∧ c ≤ 1) ∧
    (∀ r1 r2 rest, result.rankings = r1 :: r2 :: rest →
      r1.score = 78 → r2.score = 77 → ConfidenceOf result k c →
      (3/10 : ℝ) ≤ c ∧ c ≤ 7/10) := by
  constructor
  · intro r1 r2 rest hr h1 h2 hC
    have hb := confidenceOf_bounds result k c r1 r2 rest hr hp
      (fun os h => (hcs os h).2) hC
    rw [h1, h2] at hb
    have hbase : confidenceBase (90 - 55) = 9/10 := by norm_num [confidenceBase]
    rw [hbase] at hb
    push_cast at hb
    exact ⟨by linarith [hb.1], hb.2.2⟩
  · intro r1 r2 rest hr h1 h2 hC
    have hb := confidenceOf_bounds result k c r1 r2 rest hr hp
      (fun os h => (hcs os h).2) hC
    rw [h1, h2] at hb
    have hbase : confidenceBase (78 - 77) = 2/5 := by norm_num [confidenceBase]
    rw [hbase] at hb
    push_cast at hb
    exact ⟨by linarith [hb.1], by linarith [hb.2.1]⟩

/-- Options of the C8 counterexample. -/
def oC8a : TechnicalOption := ⟨some "A", some "frontend", none⟩

/-- Second option of the C8 counterexample. -/
def oC8b : TechnicalOption := ⟨some "B", some "frontend", none⟩

/-- The top option's criteria scores: all six criteria at 78. -/
def csC8 : List (String × ℚ) :=
  [(COST, 78), (PERFORMANCE, 78), (SCALABILITY, 78), (LEARNING_CURVE, 78),
   (VENDOR_LOCK_IN, 78), (MAINTAINABILITY, 78)]

/-- A two-option evaluation result with rank-1/rank-2 weighted scores 78 and
77, the top option scoring 78 on every criterion. -/
def resultC8 : EvaluationResult :=
  ⟨[⟨oC8a, csC8, 78, 78⟩,
    ⟨oC8b, [(COST, 77), (PERFORMANCE, 77), (SCALABILITY, 77), (LEARNING_CURVE, 77),
      (VENDOR_LOCK_IN, 77), (MAINTAINABILITY, 77)], 77, 77⟩],
   [⟨oC8a, 1, 78⟩, ⟨oC8b, 2, 77⟩],
   ⟨[], [], []⟩⟩

/-- All-medium constraints for the C8 counterexample. -/
def kC8 : UserConstraints :=
  ⟨.medium, ⟨0, .low⟩, ⟨.mixed, []⟩, .medium, ⟨3, 3, 3, 3, 3⟩⟩

theorem resultC8_align :
    calculatePriorityAlignment ⟨oC8a, csC8, 78, 78⟩ kC8 = 39/50 := by
  simp only [calculatePriorityAlignment, normalizePriorities, mapPriorityToCriterion,
    kC8, csC8, COST, PERFORMANCE, SCALABILITY, LEARNING_CURVE, VENDOR_LOCK_IN,
    MAINTAINABILITY, List.lookup, List.foldl_cons, List.foldl_nil,
    String.reduceEq, String.reduceBEq, reduceIte]
  norm_num

theorem resultC8_conf_align : confidenceAfterAlignment resultC8 kC8 = 57/125 := by
  have hfind : List.find? (fun s : OptionScore => optNameStr s.option = optNameStr oC8a)
      ([⟨oC8a, csC8, 78, 78⟩,
        ⟨oC8b, [(COST, 77), (PERFORMANCE, 77), (SCALABILITY, 77), (LEARNING_CURVE, 77),
          (VENDOR_LOCK_IN, 77), (MAINTAINABILITY, 77)], 77, 77⟩] : List OptionScore) =
      some ⟨oC8a, csC8, 78, 78⟩ := rfl
  simp only [confidenceAfterAlignment, resultC8]
  rw [hfind]
  dsimp only
  rw [resultC8_align]
  norm_num [confidenceBase, min_def]

theorem csC8_variance : varOfScores csC8 = 0 := by
  norm_num [varOfScores, csC8]

/-- C8 counterexample: an evaluation result whose rank-1 and rank-2 weighted
scores are 78 and 77 (gap 1) but whose computed confidence is 0.656 > 0.5 —
the top option scores 78 on all six criteria, so the alignment adjustment
adds 0.056 and the consistency bonus adds the full 0.2 to the 0.4 base. -/
theorem C8_counterexample :
    resultC8.rankings.map (fun r => r.score) = [78, 77] ∧
    ConfidenceOf resultC8 kC8 (82/125) ∧ ((1/2 : ℝ) < 82/125) := by
  refine ⟨rfl, ?_, by norm_num⟩
  show ∃ s : ℝ, 0 ≤ s ∧
    s ^ 2 = ((varOfScores csC8 : ℚ) : ℝ) ∧
    (82/125 : ℝ) = max (1/10) (min 1 (min 1
      (((confidenceAfterAlignment resultC8 kC8 : ℚ) : ℝ) +
        min (1/5) (max 0 ((20 - s) / 100)))))
  refine ⟨0, le_refl 0, ?_, ?_⟩
  · rw [csC8_variance]
    norm_num
  · rw [resultC8_conf_align]
    push_cast
    norm_num [min_def, max_def]

/-- First option of the C8 witness. -/
def oW8a : TechnicalOption := ⟨some "A", some "frontend", none⟩

/-- Second option of the C8 witness. -/
def oW8b : TechnicalOption := ⟨some "B", some "frontend", none⟩

/-- The C8 witness top option's criteria scores: all six at 90. -/
def csW8 : List (String × ℚ) :=
  [(COST, 90), (PERFORMANCE, 90), (SCALABILITY, 90), (LEARNING_CURVE, 90),
   (VENDOR_LOCK_IN, 90), (MAINTAINABILITY, 90)]

/-- A two-option evaluation result with rank-1/rank-2 weighted scores 90 and
55. -/
def resultW8 : EvaluationResult :=
  ⟨[⟨oW8a, csW8, 90, 90⟩,
    ⟨oW8b, [(COST, 55), (PERFORMANCE, 55), (SCALABILITY, 55), (LEARNING_CURVE, 55),
      (VENDOR_LOCK_IN, 55), (MAINTAINABILITY, 55)], 55, 55⟩],
   [⟨oW8a, 1, 90⟩, ⟨oW8b, 2, 55⟩],
   ⟨[], [], []⟩⟩

/-- All-medium constraints for the C8 witness. -/
def kW8 : UserConstraints :=
  ⟨.medium, ⟨0, .low⟩, ⟨.mixed, []⟩, .medium, ⟨3, 3, 3, 3, 3⟩⟩

theorem resultW8_align :
    calculatePriorityAlignment ⟨oW8a, csW8, 90, 90⟩ kW8 = 9/10 := by
  simp only [calculatePriorityAlignment, normalizePriorities, mapPriorityToCriterion,
    kW8, csW8, COST, PERFORMANCE, SCALABILITY, LEARNING_CURVE, VENDOR_LOCK_IN,
    MAINTAINABILITY, List.lookup, List.foldl_cons, List.foldl_nil,
    String.reduceEq, String.reduceBEq, reduceIte]
  norm_num

theorem resultW8_conf_align : confidenceAfterAlignment resultW8 kW8 = 49/50 := by
  have hfind : List.find? (fun s : OptionScore => optNameStr s.option = optNameStr oW8a)
      ([⟨oW8a, csW8, 90, 90⟩,
        ⟨oW8b, [(COST, 55), (PERFORMANCE, 55), (SCALABILITY, 55), (LEARNING_CURVE, 55),
          (VENDOR_LOCK_IN, 55), (MAINTAINABILITY, 55)], 55, 55⟩] : List OptionScore) =
      some ⟨oW8a, csW8, 90, 90⟩ := rfl
  simp only [confidenceAfterAlignment, resultW8]
  rw [hfind]
  dsimp only
  rw [resultW8_align]
  norm_num [confidenceBase, min_def]

theorem csW8_variance : varOfScores csW8 = 0 := by
  norm_num [varOfScores, csW8]

/-- C8 witness: the amended bands applied at a concrete result with scores
90 and 55 whose confidence computes to exactly 1, inside [0.8, 1]. -/
theorem C8_witness :
    resultW8.rankings.map (fun r => r.score) = [90, 55] ∧
    ((4/5 : ℝ) ≤ 1 ∧ (1 : ℝ) ≤ 1) := by
  refine ⟨rfl, ?_⟩
  have hcs : ∀ os, topScoreOf resultW8 = some os →
      os.criteriaScores ≠ [] ∧ Bounded os.criteriaScores := by
    intro os h
    have ht : topScoreOf resultW8 = some ⟨oW8a, csW8, 90, 90⟩ := rfl
    rw [ht] at h
    injection h with h
    subst h
    refine ⟨by simp [csW8], ?_⟩
    intro kv hkv
    simp only [csW8, List.mem_cons, List.not_mem_nil, or_false] at hkv
    rcases hkv with rfl | rfl | rfl | rfl | rfl | rfl <;> norm_num
  have hConf : ConfidenceOf resultW8 kW8 1 := by
    show ∃ s : ℝ, 0 ≤ s ∧
      s ^ 2 = ((varOfScores csW8 : ℚ) : ℝ) ∧
      (1 : ℝ) = max (1/10) (min 1 (min 1
        (((confidenceAfterAlignment resultW8 kW8 : ℚ) : ℝ) +
          min (1/5) (max 0 ((20 - s) / 100)))))
    refine ⟨0, le_refl 0, ?_, ?_⟩
    · rw [csW8_variance]
      norm_num
    · rw [resultW8_conf_align]
      push_cast
      norm_num [min_def, max_def]
  exact (C8_confidence_bands resultW8 kW8 1 (by norm_num [PriNonneg, kW8]) hcs).1
    ⟨oW8a, 1, 90⟩ ⟨oW8b, 2, 55⟩ [] rfl rfl rfl hConf
